import Mathlib

/-!
Shallow embedding of the Execution Coordination and Versioned State subsystem
of the EurynIDE backend, together with theorems settling the frozen claims
about it.

The definitions below are translated from the Python sources:
  app/services/orchestrator/session_manager.py   (versioned state store)
  app/services/orchestrator/agent_coordinator.py (execution coordinator)
  app/services/orchestrator/mode_dispatcher.py   (mode allow-lists)
  app/cache/cache_strategies.py                  (locks and analysis cache)
  app/cache/redis_client.py                      (key-value backing store)
  app/services/llm/qwen_client.py                (provider client with retry)
  app/services/agents/base.py                    (agent template method)
  app/config.py                                  (configuration defaults)

Modelling conventions:
 - machine-independent data only: Python ints become Int or Nat, strings
   become String, dicts become association lists with Python dict update
   semantics;
 - the async layer is sequentialized: each operation is a pure function on
   an explicit state (database rows, lock store, key-value cache, provider
   call counter); wall-clock time is an explicit Nat parameter and the
   key-value store keeps absolute expiry instants, mirroring Redis SETEX
   semantics;
 - sha256 hex digests are modelled by an injective function (collisions are
   assumed absent, which is the standard idealization of a cryptographic
   hash);
 - JSON values are modelled by the fragment that the coordinated core
   actually stores, merges and serializes (atomic values, string arrays and
   the empty-object placeholder used by fallback payloads); per-analysis
   prompt and parser logic is abstract, exactly as the specification
   excludes it from the core;
 - exceptions become Except / explicit failure results; the translation of
   a try/except block inlines the handler at the raise sites it catches.
-/

deriving instance DecidableEq for Except

/-! ## Generic helpers: association lists, ordering, substrings -/

/-- Lexicographic comparison on character lists (used to model the key
ordering of Python json.dumps with sort_keys=True). -/
def charListLe : List Char → List Char → Bool
  | [], _ => true
  | _ :: _, [] => false
  | a :: as, b :: bs => if a == b then charListLe as bs else decide (a < b)

/-- String order backing the canonical serialization of dict keys. -/
def strLe (a b : String) : Bool := charListLe a.toList b.toList

/-- Insert into a list sorted by the boolean relation le. -/
def insertLe (le : α → α → Bool) (x : α) : List α → List α
  | [] => [x]
  | y :: ys => if le x y then x :: y :: ys else y :: insertLe le x ys

/-- Insertion sort by the boolean relation le. -/
def sortLe (le : α → α → Bool) : List α → List α
  | [] => []
  | x :: xs => insertLe le x (sortLe le xs)

/-- Test whether the second character list starts with the first. -/
def listStartsWith : List Char → List Char → Bool
  | [], _ => true
  | _ :: _, [] => false
  | a :: as, b :: bs => a == b && listStartsWith as bs

/-- Test whether pat occurs as a contiguous sublist. -/
def listHasSub (pat : List Char) : List Char → Bool
  | [] => pat.isEmpty
  | b :: bs => listStartsWith pat (b :: bs) || listHasSub pat bs

/-- Substring test, modelling the Python expression pat in s. -/
def containsSub (s pat : String) : Bool := listHasSub pat.toList s.toList

/-- ASCII lower-casing of one character (Python str.lower restricted to the
ASCII range, which covers every string the embedded code lower-cases). -/
def lowerChar (c : Char) : Char :=
  if 'A' ≤ c && c ≤ 'Z' then Char.ofNat (c.toNat + 32) else c

/-- ASCII lower-casing, modelling Python str.lower. -/
def lowerStr (s : String) : String := String.mk (s.toList.map lowerChar)

/-! ## JSON values and Python dict semantics -/

/-- JSON value fragment stored and merged by the coordinated core.  Nested
objects never flow through the modelled operations; string arrays and the
empty-object placeholder appear in the kind-specific fallback payloads. -/
inductive JVal where
  | str : String → JVal
  | int : Int → JVal
  | bool : Bool → JVal
  | null : JVal
  | strArr : List String → JVal
  | emptyObj : JVal
  deriving DecidableEq, Repr

/-- Python dict with string keys, as an association list in insertion
order. -/
abbrev PyDict := List (String × JVal)

/-- Python truthiness of a JSON value (used by the cached-result checks). -/
def jTruthy : JVal → Bool
  | .str s => !(s == "")
  | .int n => !(n == 0)
  | .bool b => b
  | .null => false
  | .strArr xs => !xs.isEmpty
  | .emptyObj => false

/-- Python dict item assignment d[k] = v: replace in place when the key is
present, append otherwise. -/
def pyDictSet (d : List (String × α)) (k : String) (v : α) : List (String × α) :=
  if d.any (fun kv => kv.1 == k) then
    d.map (fun kv => if kv.1 == k then (k, v) else kv)
  else
    d ++ [(k, v)]

/-- Python dict.update: assign every pair of upd into d in order. -/
def pyDictUpdate (d upd : List (String × α)) : List (String × α) :=
  upd.foldl (fun acc kv => pyDictSet acc kv.1 kv.2) d

/-- Quoted rendering of a string, as json.dumps renders keys and strings
(escaping is not modelled; the digest below is injective regardless). -/
def jsonQuote (s : String) : String := "\"" ++ s ++ "\""

/-- Rendering of one JSON value, as json.dumps renders it. -/
def jValToString : JVal → String
  | .str s => jsonQuote s
  | .int n => toString n
  | .bool b => if b then "true" else "false"
  | .null => "null"
  | .strArr xs => "[" ++ String.intercalate ", " (xs.map jsonQuote) ++ "]"
  | .emptyObj => "\x7b\x7d"

/-- Rendering of a dict with keys in sorted order, modelling
json.dumps(d, sort_keys=True). -/
def pyDictDumps (d : PyDict) : String :=
  "\x7b" ++
    String.intercalate ", "
      ((sortLe (fun a b => strLe a.1 b.1) d).map
        (fun kv => jsonQuote kv.1 ++ ": " ++ jValToString kv.2)) ++
  "\x7d"

/-- Injective model of hashlib.sha256(s).hexdigest(): the digest of distinct
inputs is assumed distinct, so the model keeps the input itself. -/
def sha256Hex (s : String) : String := s

/-! ## Configuration (app/config.py defaults) -/

/-- Configuration fields read by the embedded code, with the defaults
declared in app/config.py. -/
structure Settings where
  cacheTtlSeconds : Nat := 3600
  analysisCacheTtl : Nat := 3600
  agentTimeoutSeconds : Nat := 30
  agentRetryAttempts : Nat := 3
  deriving Repr

/-! ## Errors (app/core/exceptions.py) -/

/-- Application exceptions raised by the embedded operations.  Constructor
arguments mirror the details carried by each exception class. -/
inductive AppError where
  | sessionNotFound (sessionId : String)
  | sessionConflict (sessionId : String) (expectedVersion actualVersion : Int)
  | validationError (field reason : String)
  | agentNotFound (agentName : String)
  deriving DecidableEq, Repr

/-! ## Versioned state store (session_manager.py, database/models.py) -/

/-- Cursor position dict \x7bline, column\x7d carried through sync calls. -/
structure CursorPos where
  line : Int
  column : Int
  deriving DecidableEq, Repr

/-- Row of the sessions table (fields the embedded code reads or writes). -/
structure SessionRec where
  sessionId : String
  userId : String
  mode : String
  title : String
  gradeLevel : Option String
  subject : Option String
  status : String
  totalInteractions : Nat
  deriving DecidableEq, Repr

/-- Row of the editor_states table: one immutable document snapshot.
The selections payload is carried opaquely and is omitted here; the
timestamp column is not read by any embedded operation. -/
structure EditorState where
  sessionId : String
  content : String
  contentHash : String
  wordCount : Nat
  cursorPosition : Option CursorPos
  version : Int
  parentVersion : Option Int
  changeType : Option String
  changedRange : Option (Int × Int)
  deriving DecidableEq, Repr

/-- Fast-path latest-content cache entry written by SessionCache.set_content. -/
structure ContentEntry where
  content : String
  version : Int
  hash : String
  wordCount : Nat
  deriving DecidableEq, Repr

/-- Database plus session-level Redis cache state seen by SessionManager. -/
structure Db where
  sessions : List SessionRec
  editorStates : List EditorState
  contentCache : List (String × ContentEntry)
  deriving DecidableEq, Repr

/-- Lookup of a session row by id (the select in get_session). -/
def getSessionRec (db : Db) (sessionId : String) : Option SessionRec :=
  db.sessions.find? (fun s => s.sessionId == sessionId)

/-- Latest editor state of a session: order_by(version.desc()).limit(1). -/
def latestState (db : Db) (sessionId : String) : Option EditorState :=
  (db.editorStates.filter (fun st => st.sessionId == sessionId)).foldl
    (fun acc st =>
      match acc with
      | none => some st
      | some b => if st.version > b.version then some st else some b)
    none

/-- Lookup of one editor state row by (session, version). -/
def findEditorState (db : Db) (sessionId : String) (version : Int) :
    Option EditorState :=
  db.editorStates.find?
    (fun st => st.sessionId == sessionId && st.version == version)

/-- Key of the fast-path content cache entry of a session. -/
def sessionContentKey (sessionId : String) : String :=
  "session:" ++ sessionId ++ ":content"

/-- SessionManager.create_session: validate the mode (empty or missing mode
falls back to literature), then insert an active session row.  The session
id is generated by the database layer and is passed in explicitly here. -/
def createSession (db : Db) (sessionId userId : String) (mode? : Option String)
    (title? gradeLevel subject : Option String) :
    Except AppError (Db × SessionRec) :=
  let mode :=
    match mode? with
    | none => "literature"
    | some m => if m == "" then "literature" else m
  if mode ≠ "literature" ∧ mode ≠ "science" then
    .error (.validationError "mode"
      ("无效的模式: " ++ mode ++ "，仅支持literature和science"))
  else
    let session : SessionRec :=
      { sessionId := sessionId, userId := userId, mode := mode,
        title := title?.getD "学习会话", gradeLevel := gradeLevel,
        subject := subject, status := "active", totalInteractions := 0 }
    .ok ({ db with sessions := db.sessions ++ [session] }, session)

/-- SessionManager.sync_editor_state: verify the session exists, hash the
content, read the latest version, detect a conflict when an explicit version
is supplied, append the new immutable snapshot, bump the interaction
counter and refresh the fast-path content cache.  Note that the source only
checks for a conflict when a latest row exists, and that it persists the
supplied version number itself rather than latest + 1. -/
def syncEditorState (db : Db) (sessionId content : String)
    (cursorPosition : Option CursorPos) (version? : Option Int)
    (changeType : Option String) (changedRange : Option (Int × Int)) :
    Except AppError (Db × EditorState) :=
  match getSessionRec db sessionId with
  | none => .error (.sessionNotFound sessionId)
  | some _session =>
    let contentHash := sha256Hex content
    let wordCount := content.length
    let latest := latestState db sessionId
    let newVersionE : Except AppError Int :=
      match version?, latest with
      | some v, some l =>
          if v ≤ l.version then
            .error (.sessionConflict sessionId v l.version)
          else .ok v
      | some v, none => .ok v
      | none, some l => .ok (l.version + 1)
      | none, none => .ok 1
    match newVersionE with
    | .error e => .error e
    | .ok newVersion =>
      let editorState : EditorState :=
        { sessionId := sessionId, content := content,
          contentHash := contentHash, wordCount := wordCount,
          cursorPosition := cursorPosition, version := newVersion,
          parentVersion := latest.map (fun l => l.version),
          changeType := changeType, changedRange := changedRange }
      let db' : Db :=
        { db with
          editorStates := db.editorStates ++ [editorState],
          sessions := db.sessions.map (fun s =>
            if s.sessionId == sessionId then
              { s with totalInteractions := s.totalInteractions + 1 }
            else s),
          contentCache :=
            (sessionContentKey sessionId,
              { content := content, version := newVersion,
                hash := contentHash, wordCount := wordCount }) ::
            db.contentCache.filter
              (fun kv => kv.1 ≠ sessionContentKey sessionId) }
      .ok (db', editorState)

/-- SessionManager.get_editor_history: rows of the session filtered by the
optional version bounds, most recent version first, at most limit rows. -/
def getEditorHistory (db : Db) (sessionId : String)
    (fromVersion toVersion : Option Int) (limit : Nat := 50) :
    List EditorState :=
  let rows := db.editorStates.filter (fun st =>
    st.sessionId == sessionId
    && (match fromVersion with
        | some f => decide (f ≤ st.version)
        | none => true)
    && (match toVersion with
        | some t => decide (st.version ≤ t)
        | none => true))
  (sortLe (fun a b => decide (b.version ≤ a.version)) rows).take limit

/-- SessionManager.rollback_to_version: fetch the snapshot at the target
version (a ValidationException when it is absent), then create a new
version through sync_editor_state with the historical content and
change_type rollback. -/
def rollbackToVersion (db : Db) (sessionId : String) (targetVersion : Int) :
    Except AppError (Db × EditorState) :=
  match findEditorState db sessionId targetVersion with
  | none =>
    .error (.validationError "target_version"
      ("版本 " ++ toString targetVersion ++ " 不存在"))
  | some target =>
    syncEditorState db sessionId target.content target.cursorPosition
      none (some "rollback") none

/-- Database change performed by delete_session: the session status becomes
deleted and the session-scoped cache entries are dropped; the editor state
rows are untouched. -/
def softDeletedDb (db : Db) (sessionId : String) : Db :=
  { db with
    sessions := db.sessions.map (fun s =>
      if s.sessionId == sessionId then { s with status := "deleted" }
      else s),
    contentCache := db.contentCache.filter (fun kv =>
      !(("session:" ++ sessionId ++ ":").isPrefixOf kv.1)) }

/-- SessionManager.delete_session: soft delete.  No later operation checks
the status field. -/
def deleteSession (db : Db) (sessionId : String) : Except AppError Db :=
  match getSessionRec db sessionId with
  | none => .error (.sessionNotFound sessionId)
  | some _session => .ok (softDeletedDb db sessionId)

/-! ## Execution lock (cache_strategies.py AgentLockManager) -/

/-- Lock store: one Redis string key per held lock, holding the request id
of the holder.  The TTL of a lock bounds staleness after a crash and is not
part of the sequential model; a key is either present or absent. -/
abbrev LockStore := List (String × String)

/-- CacheKeyBuilder.agent_lock. -/
def agentLockKey (sessionId agentName : String) : String :=
  "lock:agent:" ++ sessionId ++ ":" ++ agentName

/-- Redis DEL of one key. -/
def removeLockKey (locks : LockStore) (key : String) : LockStore :=
  locks.filter (fun kv => kv.1 ≠ key)

/-- AgentLockManager.acquire_lock: Redis SET NX on the lock key — succeed
exactly when the key is absent, never block. -/
def acquireLock (locks : LockStore) (sessionId agentName requestId : String) :
    LockStore × Bool :=
  let key := agentLockKey sessionId agentName
  match locks.lookup key with
  | some _ => (locks, false)
  | none => ((key, requestId) :: locks, true)

/-- AgentLockManager.release_lock: read the current holder, delete the key
only when it equals the request id of the caller, otherwise change
nothing and report failure. -/
def releaseLock (locks : LockStore) (sessionId agentName requestId : String) :
    LockStore × Bool :=
  let key := agentLockKey sessionId agentName
  match locks.lookup key with
  | some holder =>
    if holder == requestId then (removeLockKey locks key, true)
    else (locks, false)
  | none => (locks, false)

/-! ## Analysis result cache (cache_strategies.py AnalysisCache over
redis_client.py) -/

/-- Payload stored by AnalysisCache.set_result (the JSON object with keys
results, created_at and hit_count); get_json / set_json round-tripping is
the identity in the model. -/
structure AnalysisEntryVal where
  results : PyDict
  createdAt : Nat
  hitCount : Nat
  deriving DecidableEq, Repr

/-- One Redis value with its absolute expiry instant (Redis SETEX stores
now + ttl; both writers of this keyspace always pass a ttl). -/
structure KVEntry where
  value : AnalysisEntryVal
  expiresAt : Nat
  deriving DecidableEq, Repr

/-- Redis keyspace holding analysis results. -/
abbrev KV := List (String × KVEntry)

/-- Redis GET at the instant now: a key that has reached its expiry is
absent. -/
def kvGet (kv : KV) (now : Nat) (key : String) : Option AnalysisEntryVal :=
  match kv.lookup key with
  | some e => if now < e.expiresAt then some e.value else none
  | none => none

/-- Redis SETEX at the instant now. -/
def kvSetEx (kv : KV) (now : Nat) (key : String) (v : AnalysisEntryVal)
    (ttl : Nat) : KV :=
  (key, { value := v, expiresAt := now + ttl }) ::
    kv.filter (fun kv' => kv'.1 ≠ key)

/-- CacheKeyBuilder.analysis_result. -/
def analysisResultKey (analysisType contentHash : String) : String :=
  "analysis:" ++ analysisType ++ ":" ++ contentHash

/-- AnalysisCache.set_result: store the result wrapped with created_at and
a zero hit counter, under the content-hash key, with the supplied ttl; a
missing or zero ttl (falsy in Python) falls back to the configured
analysis_cache_ttl. -/
def analysisCacheSetResult (cfg : Settings) (kv : KV) (now : Nat)
    (analysisType content : String) (result : PyDict) (ttl? : Option Nat) :
    KV :=
  let key := analysisResultKey analysisType (sha256Hex content)
  let ttl :=
    match ttl? with
    | some t => if t == 0 then cfg.analysisCacheTtl else t
    | none => cfg.analysisCacheTtl
  kvSetEx kv now key
    { results := result, createdAt := now, hitCount := 0 } ttl

/-- AnalysisCache.get_result: on a hit, increment the persisted hit counter
and write the entry back with the full configured analysis_cache_ttl, then
return the updated payload. -/
def analysisCacheGetResult (cfg : Settings) (kv : KV) (now : Nat)
    (analysisType content : String) : KV × Option AnalysisEntryVal :=
  let key := analysisResultKey analysisType (sha256Hex content)
  match kvGet kv now key with
  | none => (kv, none)
  | some data =>
    let data' := { data with hitCount := data.hitCount + 1 }
    (kvSetEx kv now key data' cfg.analysisCacheTtl, some data')

/-! ## Provider client (qwen_client.py) -/

/-- Raw provider behaviour: the n-th call either returns content with a
token count or raises with an error message.  The call counter threaded
below counts provider invocations. -/
abbrev Provider := Nat → Except String (String × Nat)

/-- Exceptions raised by QwenClient.complete, classified from the raw error
message exactly as the source does. -/
inductive LLMError where
  | rateLimit
  | tokenLimit (requested limit : Nat)
  | api (reason : String)
  deriving DecidableEq, Repr

/-- Error classification in the except handler of QwenClient.complete. -/
def classifyProviderError (msg : String) (maxTokens : Nat) : LLMError :=
  if containsSub (lowerStr msg) "rate_limit" || containsSub msg "429" then
    .rateLimit
  else if containsSub (lowerStr msg) "token"
      && containsSub (lowerStr msg) "limit" then
    .tokenLimit maxTokens maxTokens
  else
    .api msg

/-- Rendering str(e) of each exception, from the message fields declared in
app/core/exceptions.py. -/
def llmErrorMessage : LLMError → String
  | .rateLimit => "AI服务请求过于频繁，请稍后再试"
  | .tokenLimit requested limit =>
      "内容过长，超出限制 (请求: " ++ toString requested ++ ", 限制: "
        ++ toString limit ++ ")"
  | .api reason => "AI服务暂时不可用: " ++ reason

/-- QwenClient.complete: one provider invocation; a raw failure is mapped
through the message classification above. -/
def complete (prov : Provider) (calls : Nat) (maxTokens : Nat) :
    Nat × Except LLMError (String × Nat) :=
  match prov calls with
  | .ok contentTokens => (calls + 1, .ok contentTokens)
  | .error msg => (calls + 1, .error (classifyProviderError msg maxTokens))

/-- Outcome of complete_with_retry: the provider call counter after the
loop, the list of backoff sleeps performed, and the final result. -/
structure RetryOutcome where
  calls : Nat
  sleeps : List Nat
  result : Except LLMError (String × Nat)
  deriving DecidableEq, Repr

/-- Loop body of QwenClient.complete_with_retry: attempt indexes the loop,
remaining counts the attempts left, lastError holds the last non-rate-limit
failure.  A rate limit error is re-raised at once; any other error sleeps
2 ^ attempt and retries while attempts remain; when the attempts are
exhausted the last error is raised (or a generic API error when the loop
never ran). -/
def completeWithRetryGo (prov : Provider) (maxTokens : Nat) :
    Nat → Nat → Nat → Option LLMError → List Nat → RetryOutcome
  | calls, _attempt, 0, lastError, sleeps =>
    { calls := calls, sleeps := sleeps,
      result := .error (lastError.getD (.api "未知错误")) }
  | calls, attempt, remaining + 1, _lastError, sleeps =>
    let (calls', res) := complete prov calls maxTokens
    match res with
    | .ok contentTokens =>
      { calls := calls', sleeps := sleeps, result := .ok contentTokens }
    | .error .rateLimit =>
      { calls := calls', sleeps := sleeps, result := .error .rateLimit }
    | .error e =>
      if remaining == 0 then
        { calls := calls', sleeps := sleeps, result := .error e }
      else
        completeWithRetryGo prov maxTokens calls' (attempt + 1) remaining
          (some e) (sleeps ++ [2 ^ attempt])

/-- QwenClient.complete_with_retry. -/
def completeWithRetry (prov : Provider) (maxTokens maxRetries calls : Nat) :
    RetryOutcome :=
  completeWithRetryGo prov maxTokens calls 0 maxRetries none []

/-! ## Agent base class (services/agents/base.py) -/

/-- Abstract per-agent interface: the validate_inputs, build_user_prompt
and parse_response hooks implemented by each agent subclass, together with
the AgentConfig fields read by BaseAgent.run.  The specification excludes
the per-kind prompt and parser content from the core, so these hooks are
abstract functions here; validate returns the ValueError reason when it
raises.  Defaults come from AgentConfig / app/config.py. -/
structure AgentSpec where
  name : String
  validate : PyDict → Option String
  buildPrompt : PyDict → String
  parse : String → PyDict
  enableCache : Bool := true
  cacheTtl : Nat := 3600
  retryAttempts : Nat := 3
  maxTokens : Nat := 4000

/-- Metadata dict of an AgentResult: Python builds it with a varying key
set, so every field is optional and none models an absent key.  Timing
(execution_time_ms) is not modelled. -/
structure AgentMetadata where
  agent : Option String := none
  fromCache : Option Bool := none
  fallback : Option Bool := none
  locked : Option Bool := none
  errorType : Option String := none
  retryCount : Option Nat := none
  tokensUsed : Option Nat := none
  deriving DecidableEq, Repr

/-- AgentResult (base.py): the uniform execution result. -/
structure AgentResult where
  success : Bool
  data : Option PyDict := none
  error : Option String := none
  metadata : AgentMetadata := {}
  deriving DecidableEq, Repr

/-- Shared mutable state threaded through the coordinator: the analysis
cache keyspace, the lock store, and the provider invocation counter. -/
structure World where
  kv : KV
  locks : LockStore
  providerCalls : Nat
  deriving Repr

/-- BaseAgent.generate_cache_key: sha256 of the sorted-key JSON dump of
the dict with keys agent and inputs.  json.dumps with sort_keys sorts
nested dicts as well; the values flowing through the core are flat, so
sorting the inputs dict itself is the whole canonicalization. -/
def generateCacheKey (agentName : String) (inputs : PyDict) : String :=
  sha256Hex
    ("\x7b\"agent\": " ++ jsonQuote agentName ++ ", \"inputs\": "
      ++ pyDictDumps inputs ++ "\x7d")

/-- BaseAgent.get_from_cache: when caching is enabled, read the analysis
cache under the cache key; a truthy payload yields its results dict. -/
def agentGetFromCache (cfg : Settings) (spec : AgentSpec) (kv : KV)
    (now : Nat) (cacheKey : String) : KV × Option PyDict :=
  if spec.enableCache then
    let (kv', data?) := analysisCacheGetResult cfg kv now spec.name cacheKey
    match data? with
    | some data => (kv', some data.results)
    | none => (kv', none)
  else (kv, none)

/-- BaseAgent.save_to_cache: when caching is enabled, store the parsed
result under the cache key with the configured agent cache ttl. -/
def agentSaveToCache (cfg : Settings) (spec : AgentSpec) (kv : KV)
    (now : Nat) (cacheKey : String) (result : PyDict) : KV :=
  if spec.enableCache then
    analysisCacheSetResult cfg kv now spec.name cacheKey result
      (some spec.cacheTtl)
  else kv

/-- BaseAgent.run, steps 3 to 8: build the prompt, call the provider with
retry through execute_llm, parse, cache, and assemble the result.  A
provider failure surfaces as an AgentExecutionException whose message is
wrapped by the except handler of run into a failure result that carries no
data, no fallback flag and no from_cache key. -/
def agentRunLLM (cfg : Settings) (prov : Provider) (spec : AgentSpec)
    (w : World) (now : Nat) (inputs : PyDict) (cacheKey : String) :
    World × AgentResult :=
  let _userPrompt := spec.buildPrompt inputs
  let out := completeWithRetry prov spec.maxTokens spec.retryAttempts
    w.providerCalls
  match out.result with
  | .error e =>
    ({ w with providerCalls := out.calls },
      { success := false, data := none,
        error := some ("Agent " ++ spec.name ++ " 执行失败: "
          ++ llmErrorMessage e),
        metadata := { agent := some spec.name } })
  | .ok (content, tokens) =>
    let parsed := spec.parse content
    let kv' := agentSaveToCache cfg spec w.kv now cacheKey parsed
    ({ w with kv := kv', providerCalls := out.calls },
      { success := true, data := some parsed,
        metadata :=
          { agent := some spec.name, fromCache := some false,
            tokensUsed := some tokens } })

/-- BaseAgent.run: validate the inputs (a ValueError is caught by the
except handler of run and becomes a failure result), check the cache, and
either answer from the cache with from_cache true or go through the
provider path. -/
def agentRun (cfg : Settings) (prov : Provider) (spec : AgentSpec)
    (w : World) (now : Nat) (inputs : PyDict) : World × AgentResult :=
  match spec.validate inputs with
  | some reason =>
    (w, { success := false, data := none, error := some reason,
          metadata := { agent := some spec.name } })
  | none =>
    let cacheKey := generateCacheKey spec.name inputs
    let (kv₁, cached?) := agentGetFromCache cfg spec w.kv now cacheKey
    let w₁ := { w with kv := kv₁ }
    match cached? with
    | some cachedResult =>
      if cachedResult.isEmpty then
        agentRunLLM cfg prov spec w₁ now inputs cacheKey
      else
        (w₁,
          { success := true, data := some cachedResult,
            metadata :=
              { agent := some spec.name, fromCache := some true } })
    | none => agentRunLLM cfg prov spec w₁ now inputs cacheKey

/-! ## Agent coordinator (agent_coordinator.py) -/

/-- Names registered by AgentCoordinator._register_agents. -/
def registeredAgentTypes : List String :=
  ["grammar_checker", "polish", "structure_analyzer", "health_scorer",
   "math_validator", "logic_tree_builder", "debugger", "chat", "ocr"]

/-- Registry abstraction for get_agent: resolve an agent type and its
constructor kwargs to an agent instance; none models
AgentNotFoundException. -/
abbrev AgentRegistry := String → PyDict → Option AgentSpec

/-- AgentCoordinator.execute_agent: acquire the execution lock (a busy
result when it is held), instantiate and run the agent inside try/except
(an unknown agent type becomes a failure result), and release the lock in
the finally block on every exit path. -/
def executeAgent (cfg : Settings) (prov : Provider) (registry : AgentRegistry)
    (w : World) (now : Nat) (agentType sessionId requestId : String)
    (agentKwargs : PyDict) (inputs : PyDict) : World × AgentResult :=
  let (locks₁, acquired) := acquireLock w.locks sessionId agentType requestId
  if !acquired then
    (w, { success := false, data := none,
          error := some "Agent正在执行中，请稍后再试",
          metadata := { agent := some agentType, locked := some true } })
  else
    let w₁ := { w with locks := locks₁ }
    let (w₂, result) : World × AgentResult :=
      match registry agentType agentKwargs with
      | none =>
        (w₁, { success := false, data := none,
               error := some ("Agent " ++ agentType ++ " 不存在"),
               metadata := { agent := some agentType } })
      | some spec => agentRun cfg prov spec w₁ now inputs
    let (locks₂, _released) := releaseLock w₂.locks sessionId agentType requestId
    ({ w₂ with locks := locks₂ }, result)

/-- Loop body of AgentCoordinator.execute_agent_chain: run each step with
the request id suffixed by the agent type, record the result in the results
dict keyed by agent type, stop at the first failure, and merge truthy
result data into the input of the next step. -/
def executeAgentChainGo (cfg : Settings) (prov : Provider)
    (registry : AgentRegistry) (sessionId requestId : String) (now : Nat) :
    List (String × PyDict) → World → PyDict →
    List (String × AgentResult) → World × List (String × AgentResult)
  | [], w, _currentInput, results => (w, results)
  | (agentType, agentKwargs) :: rest, w, currentInput, results =>
    let (w', result) := executeAgent cfg prov registry w now agentType
      sessionId (requestId ++ "_" ++ agentType) agentKwargs currentInput
    let results' := pyDictSet results agentType result
    if result.success then
      let currentInput' :=
        match result.data with
        | some d => if d.isEmpty then currentInput else pyDictUpdate currentInput d
        | none => currentInput
      executeAgentChainGo cfg prov registry sessionId requestId now rest w'
        currentInput' results'
    else
      (w', results')

/-- AgentCoordinator.execute_agent_chain. -/
def executeAgentChain (cfg : Settings) (prov : Provider)
    (registry : AgentRegistry) (agents : List (String × PyDict))
    (sessionId requestId : String) (w : World) (now : Nat)
    (initialInput : PyDict) : World × List (String × AgentResult) :=
  executeAgentChainGo cfg prov registry sessionId requestId now agents w
    initialInput []

/-- Task token to agent type map of AgentCoordinator.route_and_execute. -/
def taskAgentMap : List (String × String) :=
  [("grammar_check", "grammar_checker"),
   ("polish", "polish"),
   ("structure_analysis", "structure_analyzer"),
   ("health_score", "health_scorer"),
   ("math_validation", "math_validator"),
   ("logic_tree", "logic_tree_builder"),
   ("chat", "chat"),
   ("ocr", "ocr")]

/-- Constructor kwargs extracted from the request context by
route_and_execute (grade_level, mode and subject when present). -/
def buildAgentKwargs (context : PyDict) : PyDict :=
  (match context.lookup "grade_level" with
   | some v => [("grade_level", v)]
   | none => []) ++
  (match context.lookup "mode" with
   | some v => [("mode", v)]
   | none => []) ++
  (match context.lookup "subject" with
   | some v => [("subject", v)]
   | none => [])

/-- AgentCoordinator.route_and_execute: resolve the task token through the
static map (an unknown token raises AgentNotFoundException to the caller),
then execute the resolved agent.  No mode allow-list is consulted. -/
def routeAndExecute (cfg : Settings) (prov : Provider)
    (registry : AgentRegistry) (w : World) (now : Nat)
    (taskType sessionId requestId : String) (context : PyDict)
    (inputs : PyDict) : Except AppError (World × AgentResult) :=
  match taskAgentMap.lookup taskType with
  | none => .error (.agentNotFound taskType)
  | some agentType =>
    .ok (executeAgent cfg prov registry w now agentType sessionId requestId
      (buildAgentKwargs context) inputs)

/-- Retryable error-type name fragments of
AgentCoordinator.handle_agent_failure. -/
def retryableErrorNames : List String :=
  ["TimeoutError", "ConnectionError", "RateLimitError",
   "ServiceUnavailableError"]

/-- Retry decision of handle_agent_failure: a substring match of any of the
four names against the error type name. -/
def isRetryableErrorType (errorType : String) : Bool :=
  retryableErrorNames.any (fun e => containsSub errorType e)

/-- Kind-specific degraded payloads of
AgentCoordinator._get_fallback_response. -/
def fallbackResponse (agentType error : String) : PyDict :=
  if agentType == "grammar_checker" then
    [("errors", .strArr []),
     ("message", .str "语法检查服务暂时不可用，请稍后再试"),
     ("suggestions", .strArr ["请检查网络连接", "稍后重新提交"])]
  else if agentType == "polish" then
    [("versions", .strArr []),
     ("message", .str "文本润色服务暂时不可用，请稍后再试"),
     ("suggestions", .strArr ["请检查网络连接", "稍后重新提交"])]
  else if agentType == "structure_analyzer" then
    [("tree", .emptyObj), ("relationships", .strArr []),
     ("message", .str "结构分析服务暂时不可用，请稍后再试")]
  else if agentType == "health_scorer" then
    [("dimensions", .emptyObj), ("overall_score", .int 0),
     ("message", .str "健康度评分服务暂时不可用，请稍后再试")]
  else if agentType == "math_validator" then
    [("validation_results", .strArr []),
     ("message", .str "数学验证服务暂时不可用，请稍后再试")]
  else if agentType == "logic_tree_builder" then
    [("nodes", .strArr []), ("edges", .strArr []),
     ("message", .str "逻辑树构建服务暂时不可用，请稍后再试")]
  else if agentType == "debugger" then
    [("execution_trace", .strArr []),
     ("message", .str "调试服务暂时不可用，请稍后再试")]
  else if agentType == "chat" then
    [("content", .str "抱歉，我现在无法回答您的问题。请稍后再试。"),
     ("message_type", .str "error")]
  else if agentType == "ocr" then
    [("text", .str ""), ("regions", .strArr []),
     ("message", .str "OCR识别服务暂时不可用，请稍后再试")]
  else
    [("message", .str ("服务暂时不可用: " ++ error)),
     ("suggestions", .strArr ["请稍后重试"])]

/-- AgentCoordinator.handle_agent_failure: when the error type matches the
retryable list and retries remain, sleep 2 ^ retry_count and re-execute the
agent with empty kwargs and inputs; a failed retry recurses with a plain
Exception wrapping the result error.  Otherwise degrade to the fallback
result with metadata.fallback true.  The returned list records the backoff
sleeps performed. -/
def handleAgentFailure (cfg : Settings) (prov : Provider)
    (registry : AgentRegistry) (w : World) (now : Nat)
    (agentType sessionId requestId : String) (errorType errorMsg : String)
    (retryCount maxRetries : Nat) : World × List Nat × AgentResult :=
  if h : isRetryableErrorType errorType = true ∧ retryCount < maxRetries then
    let (w', result) := executeAgent cfg prov registry w now agentType
      sessionId (requestId ++ "_retry_" ++ toString (retryCount + 1)) [] []
    if result.success then
      (w', [2 ^ retryCount], result)
    else
      let (w'', rec') := handleAgentFailure cfg prov registry w' now agentType
        sessionId requestId "Exception" (result.error.getD "Unknown error")
        (retryCount + 1) maxRetries
      (w'', 2 ^ retryCount :: rec'.1, rec'.2)
  else
    (w, [],
      { success := false,
        data := some (fallbackResponse agentType errorMsg),
        error := some ("Agent执行失败: " ++ errorMsg),
        metadata :=
          { agent := some agentType, errorType := some errorType,
            retryCount := some retryCount, fallback := some true } })
termination_by maxRetries - retryCount
decreasing_by exact Nat.sub_succ_lt_self _ _ h.2

/-! ## Mode dispatcher (mode_dispatcher.py) -/

/-- Agent allow-list of the literature mode configuration. -/
def literatureAgents : List String :=
  ["grammar_checker", "polish", "structure_analyzer", "health_scorer"]

/-- Agent allow-list of the science mode configuration. -/
def scienceAgents : List String :=
  ["math_validator", "logic_tree_builder", "debugger"]

/-- Mode configuration lookup restricted to the agents field, which is all
validate_operation reads. -/
def modeAgents (mode : String) : Option (List String) :=
  if mode == "literature" then some literatureAgents
  else if mode == "science" then some scienceAgents
  else none

/-- ModeDispatcher.validate_operation: false for an unknown mode, otherwise
membership of the operation in the agents allow-list of the mode. -/
def validateOperation (mode operation : String) : Bool :=
  match modeAgents mode with
  | none => false
  | some agents => agents.contains operation

/-! ## Concrete fixtures used by witnesses and counterexamples -/

/-- Database with one freshly created active session and no snapshots. -/
def sessionRec1 : SessionRec :=
  { sessionId := "s1", userId := "u1", mode := "literature", title := "t",
    gradeLevel := none, subject := none, status := "active",
    totalInteractions := 0 }

def dbSession0 : Db :=
  { sessions := [sessionRec1], editorStates := [], contentCache := [] }

/-- Extract the database of a successful state-store call. -/
def dbOf (e : Except AppError (Db × EditorState)) (dflt : Db) : Db :=
  match e with
  | .ok p => p.1
  | .error _ => dflt

/-- Database after one automatic sync on the fresh session: version 1. -/
def dbV1 : Db :=
  dbOf (syncEditorState dbSession0 "s1" "hello" none none none none) dbSession0

/-- Database after a sync with explicit version 5 on the fresh session:
a single snapshot with version number 5. -/
def dbGap : Db :=
  dbOf (syncEditorState dbSession0 "s1" "old" none (some 5) none none) dbSession0

/-- Extract the database of a successful delete call. -/
def dbOfDelete (e : Except AppError Db) (dflt : Db) : Db :=
  match e with
  | .ok d => d
  | .error _ => dflt

/-- Database after soft-deleting the session that holds version 1. -/
def dbDel : Db := dbOfDelete (deleteSession dbV1 "s1") dbV1

/-- Configuration with the declared defaults. -/
def cfgD : Settings := {}

/-- Stored payload of the concrete cache entry below. -/
def kvHitEntry : AnalysisEntryVal :=
  { results := [("errors", JVal.strArr [])], createdAt := 0, hitCount := 0 }

/-- Analysis cache with one live entry under the key of agent
grammar_checker and cache key k, expiring at instant 100. -/
def kvHit : KV :=
  [(analysisResultKey "grammar_checker" (sha256Hex "k"),
    { value := kvHitEntry, expiresAt := 100 })]

/-- Backoff schedule of k consecutive retries whose first sleep is indexed
by attempt: 2 ^ attempt, 2 ^ (attempt + 1), and so on. -/
def backoffs (attempt k : Nat) : List Nat :=
  match k with
  | 0 => []
  | k + 1 => 2 ^ attempt :: backoffs (attempt + 1) k

/-- World with empty cache, no locks and no provider calls yet. -/
def emptyWorld : World := { kv := [], locks := [], providerCalls := 0 }

/-- Sample parser: wrap the provider content, a concrete instance of the
abstract per-agent parse hook. -/
def sampleParse (content : String) : PyDict := [("content", JVal.str content)]

/-- Sample agent behaviour for a registered agent name: inputs always
valid, parse wraps the content; configuration keeps the declared
defaults. -/
def sampleSpec (name : String) : AgentSpec :=
  { name := name, validate := fun _ => none, buildPrompt := fun _ => "",
    parse := sampleParse }

/-- Registry with the nine registered agent types, each resolved to the
sample behaviour under its own name. -/
def sampleRegistry : AgentRegistry := fun agentType _kwargs =>
  if registeredAgentTypes.contains agentType then some (sampleSpec agentType)
  else none

/-- Provider that always succeeds. -/
def provOk : Provider := fun _ => .ok ("done", 7)

/-- Provider that always fails with a plain transient error. -/
def provBoom : Provider := fun _ => .error "boom"

/-- Provider whose first call fails with an authentication error — a
terminal error in the specification taxonomy — and whose second call
succeeds. -/
def provAuthOk : Provider := fun n =>
  if n == 0 then .error "Invalid authentication" else .ok ("done", 7)

/-- Provider that always fails with an explicit rate-limit signal. -/
def provRL : Provider := fun _ => .error "rate_limit hit"

/-- Provider answering a on the first call and b on later calls. -/
def provAB : Provider := fun n =>
  if n == 0 then .ok ("a", 1) else .ok ("b", 1)

/-- Chain of two steps with the same agent type. -/
def dupChain : List (String × PyDict) := [("chat", []), ("chat", [])]

/-- Run of the duplicate-kind chain against the two-answer provider. -/
def dupChainRun : World × List (String × AgentResult) :=
  executeAgentChain cfgD provAB sampleRegistry dupChain "s1" "r1"
    emptyWorld 0 [("message", JVal.str "hi")]

/-! ## Shared lemmas about the state store -/

/-- Characterization of a sync call without an explicit version: it always
succeeds, appends one snapshot with version latest + 1 (1 on a fresh
session) and parent the previous latest, and leaves prior rows in place. -/
theorem syncEditorState_auto (db : Db) (sid content : String)
    (cur : Option CursorPos) (ct : Option String) (cr : Option (Int × Int))
    (srec : SessionRec) (hs : getSessionRec db sid = some srec) :
    ∃ db' st, syncEditorState db sid content cur none ct cr = .ok (db', st)
      ∧ st.version = (match latestState db sid with
          | some l => l.version + 1
          | none => 1)
      ∧ st.parentVersion = (latestState db sid).map (fun l => l.version)
      ∧ st.content = content
      ∧ st.changeType = ct
      ∧ db'.editorStates = db.editorStates ++ [st] := by
  cases hl : latestState db sid with
  | none =>
    simp only [syncEditorState, hs, hl]
    exact ⟨_, _, rfl, rfl, rfl, rfl, rfl, rfl⟩
  | some l =>
    simp only [syncEditorState, hs, hl]
    exact ⟨_, _, rfl, rfl, rfl, rfl, rfl, rfl⟩

/-- A found row is still found after rows are appended. -/
theorem find?_append_of_found {α : Type} {p : α → Bool} {l₁ l₂ : List α}
    {a : α} (h : l₁.find? p = some a) : (l₁ ++ l₂).find? p = some a := by
  induction l₁ with
  | nil => simp [List.find?] at h
  | cons x xs ih =>
    simp only [List.cons_append, List.find?] at h ⊢
    cases hp : p x with
    | true => simpa [hp] using h
    | false =>
      rw [hp] at h
      simpa [hp] using ih h

/-- Membership is preserved by sorted insertion. -/
theorem mem_insertLe {α : Type} {le : α → α → Bool} {x y : α} {l : List α} :
    y ∈ insertLe le x l ↔ y = x ∨ y ∈ l := by
  induction l with
  | nil => simp [insertLe]
  | cons z zs ih =>
    by_cases hle : le x z = true
    · simp [insertLe, hle, or_comm, or_assoc, or_left_comm]
    · simp only [insertLe, hle, Bool.false_eq_true, if_false, List.mem_cons, ih]
      tauto

/-- Membership is preserved by the insertion sort. -/
theorem mem_sortLe {α : Type} {le : α → α → Bool} {y : α} {l : List α} :
    y ∈ sortLe le l ↔ y ∈ l := by
  induction l with
  | nil => simp [sortLe]
  | cons z zs ih => simp [sortLe, mem_insertLe, ih]

/-- Sorted insertion adds one element to the length. -/
theorem length_insertLe {α : Type} (le : α → α → Bool) (x : α) (l : List α) :
    (insertLe le x l).length = l.length + 1 := by
  induction l with
  | nil => simp [insertLe]
  | cons z zs ih =>
    by_cases hle : le x z = true <;> simp [insertLe, hle, ih]

/-- The insertion sort preserves the length. -/
theorem length_sortLe {α : Type} (le : α → α → Bool) (l : List α) :
    (sortLe le l).length = l.length := by
  induction l with
  | nil => rfl
  | cons z zs ih => simp [sortLe, length_insertLe, ih]

/-- Every member of a list appears in its sort truncated at any bound that
covers the list length. -/
theorem mem_take_sortLe {α : Type} (le : α → α → Bool) (l : List α) (n : Nat)
    (hn : l.length ≤ n) (y : α) (hy : y ∈ l) : y ∈ (sortLe le l).take n := by
  have hlen : (sortLe le l).length ≤ n := by
    rw [length_sortLe]
    exact hn
  rw [List.take_of_length_le hlen]
  exact mem_sortLe.mpr hy

/-- A stored snapshot is returned by the history query over its own version
range whenever the limit covers the row count. -/
theorem mem_getEditorHistory_of_found {db : Db} {sid : String} {w : Int}
    {est : EditorState} (h : findEditorState db sid w = some est) :
    est ∈ getEditorHistory db sid (some w) (some w) db.editorStates.length := by
  have hmem : est ∈ db.editorStates := List.mem_of_find?_eq_some h
  have hp := List.find?_some h
  simp only [Bool.and_eq_true, beq_iff_eq] at hp
  obtain ⟨hsid, hver⟩ := hp
  simp only [getEditorHistory]
  refine mem_take_sortLe _ _ _ (List.length_filter_le _ _) _
    (List.mem_filter.mpr ⟨hmem, ?_⟩)
  simp [hsid, hver]

/-! ## Claim C1: sync versioning -/

/-- C1 (amended): characterization of sync_editor_state on an existing
session.  A conflict Conflict(expected = supplied, actual = latest) is
raised exactly when a latest snapshot exists and the supplied version is at
most its version number (in particular, on a session with no snapshot
every supplied version is accepted, including values at most 0); on a
conflict nothing is persisted (the call returns no database state).  When
the supplied version is accepted, the persisted version number is the
supplied value itself — not latest + 1 — so explicit versions can create
gaps; without an explicit version the persisted version is latest + 1
(1 on a fresh session), and parentVersion is the previous latest in every
successful case. -/
theorem sync_editor_state_version_assignment (db : Db)
    (sid content : String) (cur : Option CursorPos) (ct : Option String)
    (cr : Option (Int × Int)) (srec : SessionRec)
    (hs : getSessionRec db sid = some srec) :
    (∀ v l, latestState db sid = some l → v ≤ l.version →
      syncEditorState db sid content cur (some v) ct cr =
        .error (.sessionConflict sid v l.version))
    ∧ (∀ v, (latestState db sid = none ∨
          ∃ l, latestState db sid = some l ∧ l.version < v) →
        ∃ db' st,
          syncEditorState db sid content cur (some v) ct cr = .ok (db', st)
          ∧ st.version = v
          ∧ st.parentVersion = (latestState db sid).map (fun l => l.version)
          ∧ st.content = content
          ∧ db'.editorStates = db.editorStates ++ [st])
    ∧ (∃ db' st,
        syncEditorState db sid content cur none ct cr = .ok (db', st)
        ∧ st.version = (match latestState db sid with
            | some l => l.version + 1
            | none => 1)
        ∧ st.parentVersion = (latestState db sid).map (fun l => l.version)
        ∧ st.content = content
        ∧ db'.editorStates = db.editorStates ++ [st]) := by
  refine ⟨?_, ?_, ?_⟩
  · intro v l hl hle
    simp only [syncEditorState, hs, hl, if_pos hle]
  · intro v hv
    rcases hv with hl | ⟨l, hl, hlt⟩
    · simp only [syncEditorState, hs, hl]
      exact ⟨_, _, rfl, rfl, rfl, rfl, rfl⟩
    · simp only [syncEditorState, hs, hl, if_neg (not_le.mpr hlt)]
      exact ⟨_, _, rfl, rfl, rfl, rfl, rfl⟩
  · obtain ⟨db', st, heq, hv, hp, hc, _hct, happ⟩ :=
      syncEditorState_auto db sid content cur ct cr srec hs
    exact ⟨db', st, heq, hv, hp, hc, happ⟩

/-- C1 witness: on the concrete session with latest version 1, a sync that
supplies the stale version 1 fails with Conflict(expected 1, actual 1),
obtained by applying the characterization at that input. -/
theorem sync_editor_state_version_assignment_witness :
    syncEditorState dbV1 "s1" "world" none (some 1) none none =
      .error (.sessionConflict "s1" 1 1) := by
  have h := sync_editor_state_version_assignment dbV1 "s1" "world" none none
    none { sessionRec1 with totalInteractions := 1 } (by decide)
  exact h.1 1 ⟨"s1", "hello", "hello", 5, none, 1, none, none, none⟩
    (by decide) (by decide)

/-- C1 counterexample: on a session whose latest version is L = 1, a sync
with explicit version 5 is accepted and persists version number 5 with
parentVersion 1, where the claim requires the persisted version to be
L + 1 = 2; the resulting numbering 1, 5 is not gapless. -/
theorem sync_editor_state_explicit_version_counterexample :
    Except.map (fun p => (p.2.version, p.2.parentVersion))
      (syncEditorState dbV1 "s1" "world" none (some 5) none none) =
      .ok (5, some 1)
    ∧ (5 : Int) ≠ 1 + 1 := by
  constructor
  · decide
  · decide

/-! ## Claim C4: rollback -/

/-- C4 (amended): rollback_to_version on an existing session fails with a
ValidationException on the target_version field — not a NotFound error —
exactly when no snapshot with the target version exists, persisting
nothing; this can happen even for targets inside [1, latest], because
explicit-version syncs can leave gaps.  When the target snapshot exists,
rollback appends a new snapshot with version latest + 1, content equal to
the target content and changeType rollback, and every previously stored
snapshot stays in place, is found unchanged, and is still returned by the
history query over its version. -/
theorem rollback_to_version_characterization (db : Db) (sid : String)
    (v : Int) (srec : SessionRec) (hs : getSessionRec db sid = some srec) :
    (findEditorState db sid v = none →
      rollbackToVersion db sid v =
        .error (.validationError "target_version"
          ("版本 " ++ toString v ++ " 不存在")))
    ∧ (∀ target, findEditorState db sid v = some target →
        ∃ db' st, rollbackToVersion db sid v = .ok (db', st)
          ∧ st.content = target.content
          ∧ st.changeType = some "rollback"
          ∧ st.version = (match latestState db sid with
              | some l => l.version + 1
              | none => 1)
          ∧ db'.editorStates = db.editorStates ++ [st]
          ∧ (∀ w est, findEditorState db sid w = some est →
              findEditorState db' sid w = some est)
          ∧ (∀ w est, findEditorState db sid w = some est →
              est ∈ getEditorHistory db' sid (some w) (some w)
                db'.editorStates.length)) := by
  constructor
  · intro hnone
    simp only [rollbackToVersion, hnone]
  · intro target ht
    obtain ⟨db', st, heq, hv, _hp, hc, hct, happ⟩ :=
      syncEditorState_auto db sid target.content target.cursorPosition
        (some "rollback") none srec hs
    refine ⟨db', st, ?_, hc, hct, hv, happ, ?_, ?_⟩
    · simp only [rollbackToVersion, ht]
      exact heq
    · intro w est hfound
      unfold findEditorState at hfound ⊢
      rw [happ]
      exact find?_append_of_found hfound
    · intro w est hfound
      have hfound' : findEditorState db' sid w = some est := by
        unfold findEditorState at hfound ⊢
        rw [happ]
        exact find?_append_of_found hfound
      exact mem_getEditorHistory_of_found hfound'

/-- C4 witness: applying the characterization on the concrete one-version
session, rollback to version 1 succeeds and appends version 2 carrying the
version-1 content with changeType rollback. -/
theorem rollback_to_version_characterization_witness :
    Except.map (fun p => (p.2.version, p.2.content, p.2.changeType))
      (rollbackToVersion dbV1 "s1" 1) = .ok (2, "hello", some "rollback") := by
  have h := rollback_to_version_characterization dbV1 "s1" 1
    { sessionRec1 with totalInteractions := 1 } (by decide)
  obtain ⟨db', st, heq, hc, hct, hv, -, -, -⟩ :=
    h.2 ⟨"s1", "hello", "hello", 5, none, 1, none, none, none⟩ (by decide)
  rw [heq, Except.map]
  simp only [hv, hc, hct]
  decide

/-- C4 counterexample: in the reachable database with a single snapshot
whose version is 5 (latest = 5), the target version 2 lies inside
[1, latest], yet rollback fails with a ValidationException instead of
appending a new version — and the failure is a validation error on the
target_version field, not a NotFound error. -/
theorem rollback_gap_version_counterexample :
    rollbackToVersion dbGap "s1" 2 =
      .error (.validationError "target_version" "版本 2 不存在")
    ∧ (latestState dbGap "s1").map (fun st => st.version) = some 5
    ∧ (1 : Int) ≤ 2 ∧ (2 : Int) ≤ 5 := by
  refine ⟨by decide, by decide, by decide, by decide⟩

/-! ## Claim C6: writes after soft delete -/

/-- Matching session rows updated in place keep being found, with the
update applied. -/
theorem find?_map_update (l : List SessionRec) (sid : String)
    (g : SessionRec → SessionRec) (hg : ∀ s, (g s).sessionId = s.sessionId)
    (srec : SessionRec)
    (h : l.find? (fun s => s.sessionId == sid) = some srec) :
    (l.map (fun s => if s.sessionId == sid then g s else s)).find?
      (fun s => s.sessionId == sid) = some (g srec) := by
  induction l with
  | nil => simp [List.find?] at h
  | cons x xs ih =>
    by_cases hx : x.sessionId = sid
    · have hb : (x.sessionId == sid) = true := beq_iff_eq.mpr hx
      rw [List.find?, hb] at h
      have hxe : x = srec := Option.some.inj h
      subst hxe
      have hgb : ((g x).sessionId == sid) = true := by
        rw [hg x]
        exact hb
      simp only [List.map, hb, if_true, List.find?, hgb]
    · have hb : (x.sessionId == sid) = false := beq_eq_false_iff_ne.mpr hx
      rw [List.find?, hb] at h
      simp only [List.map, hb, Bool.false_eq_true, if_false, List.find?]
      exact ih h

/-- C6 (amended): delete_session marks the session status deleted and drops
its cache entries, but the snapshot rows are untouched, the history query
is unaffected, and — because no later operation checks the status — a
subsequent sync on the soft-deleted session is still accepted and persists
a new version latest + 1. -/
theorem delete_session_soft_delete_characterization (db : Db) (sid : String)
    (srec : SessionRec) (hs : getSessionRec db sid = some srec) :
    ∃ db', deleteSession db sid = .ok db'
      ∧ db'.editorStates = db.editorStates
      ∧ getSessionRec db' sid = some { srec with status := "deleted" }
      ∧ (∀ f t lim, getEditorHistory db' sid f t lim =
          getEditorHistory db sid f t lim)
      ∧ (∀ content cur ct cr, ∃ db'' st,
          syncEditorState db' sid content cur none ct cr = .ok (db'', st)
          ∧ st.version = (match latestState db sid with
              | some l => l.version + 1
              | none => 1)
          ∧ db''.editorStates = db.editorStates ++ [st]) := by
  have hs' : getSessionRec (softDeletedDb db sid) sid =
      some { srec with status := "deleted" } :=
    find?_map_update db.sessions sid
      (fun s => { s with status := "deleted" }) (fun s => rfl) srec hs
  refine ⟨softDeletedDb db sid, ?_, rfl, hs', ?_, ?_⟩
  · simp only [deleteSession, hs]
  · intro f t lim
    rfl
  · intro content cur ct cr
    obtain ⟨db'', st, heq, hv, _hp, _hc, _hct, happ⟩ :=
      syncEditorState_auto (softDeletedDb db sid) sid content cur ct cr
        { srec with status := "deleted" } hs'
    exact ⟨db'', st, heq, hv, happ⟩

/-- C6 witness: applying the characterization to the concrete one-version
session shows the soft delete succeeds while keeping its snapshot row. -/
theorem delete_session_soft_delete_characterization_witness :
    Except.map (fun db' => db'.editorStates.length)
      (deleteSession dbV1 "s1") = .ok 1 := by
  obtain ⟨db', heq, hrows, -, -, -⟩ :=
    delete_session_soft_delete_characterization dbV1 "s1"
      { sessionRec1 with totalInteractions := 1 } (by decide)
  rw [heq, Except.map, hrows]
  decide

/-- C6 counterexample: after the session is soft-deleted (status deleted),
a subsequent sync is not rejected — it persists version 2 — refuting the
claim that every subsequent sync call is rejected; the historical version
remains readable, which is the part of the claim that does hold. -/
theorem sync_after_soft_delete_counterexample :
    (getSessionRec dbDel "s1").map (fun s => s.status) = some "deleted"
    ∧ Except.map (fun p => p.2.version)
        (syncEditorState dbDel "s1" "after" none none none none) = .ok 2
    ∧ (getEditorHistory dbDel "s1" none none 50).map (fun st => st.version)
        = [1] := by
  refine ⟨by decide, by decide, by decide⟩

/-! ## Claim C5: lock release is an ownership-checked delete -/

/-- Deleting a key from the lock store removes every binding of it. -/
theorem lookup_removeLockKey (locks : LockStore) (key : String) :
    (removeLockKey locks key).lookup key = none := by
  induction locks with
  | nil => rfl
  | cons kv rest ih =>
    by_cases hk : kv.1 = key
    · simpa [removeLockKey, List.filter, hk] using ih
    · have hb : (key == kv.1) = false :=
        beq_eq_false_iff_ne.mpr (Ne.symm hk)
      simpa [removeLockKey, List.filter, hk, List.lookup, hb] using ih

/-- C5 (confirmed): release_lock removes the lock and returns true exactly
when the stored holder of the lock key equals the request id of the
caller; when the key is absent or held by a different request id, the
store is unchanged and the call returns false.  After a successful
release the lock key is gone from the store. -/
theorem release_lock_compare_and_delete (locks : LockStore)
    (sid agent rid : String) :
    ((releaseLock locks sid agent rid).2 = true ↔
      locks.lookup (agentLockKey sid agent) = some rid)
    ∧ (releaseLock locks sid agent rid).1 =
        (if locks.lookup (agentLockKey sid agent) = some rid then
          removeLockKey locks (agentLockKey sid agent)
        else locks)
    ∧ ((releaseLock locks sid agent rid).1).lookup (agentLockKey sid agent) =
        (if locks.lookup (agentLockKey sid agent) = some rid then none
         else locks.lookup (agentLockKey sid agent)) := by
  cases hl : locks.lookup (agentLockKey sid agent) with
  | none =>
    simp [releaseLock, hl]
  | some holder =>
    by_cases hh : holder = rid
    · subst hh
      simp [releaseLock, hl, lookup_removeLockKey]
    · have hb : (holder == rid) = false := beq_eq_false_iff_ne.mpr hh
      simp [releaseLock, hl, hb, Option.some.injEq, hh]

/-! ## Claim C10: cache hits refresh the counter and the expiry -/

/-- Reading back a key just written by SETEX yields the written value until
its expiry instant. -/
theorem kvGet_kvSetEx_same (kv : KV) (now : Nat) (key : String)
    (v : AnalysisEntryVal) (ttl t' : Nat) :
    kvGet (kvSetEx kv now key v ttl) t' key =
      (if t' < now + ttl then some v else none) := by
  simp [kvGet, kvSetEx, List.lookup]

/-- C10 (confirmed): every lookup that finds a stored analysis result
writes the entry back with the persisted hit counter incremented by 1 and
the expiry reset to the full configured analysis-cache TTL; consequently
the refreshed entry stays readable at every instant before now + TTL, so
an entry hit at least once per TTL interval never expires. -/
theorem analysis_cache_hit_refresh (cfg : Settings) (kv : KV) (now : Nat)
    (analysisType content : String) (entry : AnalysisEntryVal)
    (hget : kvGet kv now (analysisResultKey analysisType (sha256Hex content))
      = some entry) :
    analysisCacheGetResult cfg kv now analysisType content =
      (kvSetEx kv now (analysisResultKey analysisType (sha256Hex content))
        { entry with hitCount := entry.hitCount + 1 } cfg.analysisCacheTtl,
       some { entry with hitCount := entry.hitCount + 1 })
    ∧ (∀ t', t' < now + cfg.analysisCacheTtl →
        kvGet (analysisCacheGetResult cfg kv now analysisType content).1 t'
          (analysisResultKey analysisType (sha256Hex content)) =
          some { entry with hitCount := entry.hitCount + 1 }) := by
  have h1 : analysisCacheGetResult cfg kv now analysisType content =
      (kvSetEx kv now (analysisResultKey analysisType (sha256Hex content))
        { entry with hitCount := entry.hitCount + 1 } cfg.analysisCacheTtl,
       some { entry with hitCount := entry.hitCount + 1 }) := by
    simp only [analysisCacheGetResult, hget]
  refine ⟨h1, ?_⟩
  intro t' ht
  rw [h1]
  rw [kvGet_kvSetEx_same]
  exact if_pos ht

/-- C10 witness: in the concrete cache whose entry would expire at instant
100, a hit at instant 50 returns hit count 1 and the refreshed entry is
still alive at instant 3649 = 50 + 3600 - 1, past its original expiry. -/
theorem analysis_cache_hit_refresh_witness :
    (analysisCacheGetResult cfgD kvHit 50 "grammar_checker" "k").2 =
      some { kvHitEntry with hitCount := 1 }
    ∧ kvGet (analysisCacheGetResult cfgD kvHit 50 "grammar_checker" "k").1
        3649 (analysisResultKey "grammar_checker" (sha256Hex "k")) =
      some { kvHitEntry with hitCount := 1 } := by
  have h := analysis_cache_hit_refresh cfgD kvHit 50 "grammar_checker" "k"
    kvHitEntry (by decide)
  constructor
  · rw [h.1]
    decide
  · have h2 := h.2 3649 (by decide)
    rw [h2]
    decide

/-! ## Shared lemmas about the retry loop -/

/-- The recorded backoff schedule equals the base-2 attempt-indexed
powers. -/
theorem backoffs_eq_range (k : Nat) : ∀ attempt,
    backoffs attempt k = (List.range k).map (fun i => 2 ^ (attempt + i)) := by
  induction k with
  | zero => intro attempt; rfl
  | succ k ih =>
    intro attempt
    rw [backoffs, List.range_succ_eq_map, List.map_cons, List.map_map]
    refine congrArg₂ _ (by rw [Nat.add_zero]) ?_
    rw [ih (attempt + 1)]
    refine List.map_congr_left ?_
    intro i _
    simp only [Function.comp]
    rw [Nat.add_assoc, Nat.add_comm 1 i]

/-- Unfolding of one failing provider call. -/
theorem complete_error (prov : Provider) (calls maxTokens : Nat)
    (msg : String) (h : prov calls = .error msg) :
    complete prov calls maxTokens =
      (calls + 1, .error (classifyProviderError msg maxTokens)) := by
  simp [complete, h]

/-- Unfolding of one successful provider call. -/
theorem complete_ok (prov : Provider) (calls maxTokens : Nat)
    (c : String) (t : Nat) (h : prov calls = .ok (c, t)) :
    complete prov calls maxTokens = (calls + 1, .ok (c, t)) := by
  simp [complete, h]

/-- Retry loop with a success at the k-th attempt after k non-rate-limit
failures: the provider is called k + 1 times, the backoff schedule is the
base-2 sequence indexed from the starting attempt, and the success is
returned. -/
theorem completeWithRetryGo_ok_at (prov : Provider) (maxTokens : Nat) :
    ∀ k remaining calls attempt lastError sleeps c t, k < remaining →
    (∀ i, i < k → ∃ msg, prov (calls + i) = .error msg ∧
      classifyProviderError msg maxTokens ≠ .rateLimit) →
    prov (calls + k) = .ok (c, t) →
    completeWithRetryGo prov maxTokens calls attempt remaining lastError
        sleeps =
      { calls := calls + k + 1, sleeps := sleeps ++ backoffs attempt k,
        result := .ok (c, t) } := by
  intro k
  induction k with
  | zero =>
    intro remaining calls attempt lastError sleeps c t hk _hfail hok
    match remaining, hk with
    | remaining + 1, _ =>
      rw [Nat.add_zero] at hok
      rw [completeWithRetryGo, complete_ok prov calls maxTokens c t hok]
      simp [backoffs]
  | succ k ih =>
    intro remaining calls attempt lastError sleeps c t hk hfail hok
    match remaining, hk with
    | remaining + 1, hk =>
      obtain ⟨msg, hmsg, hne⟩ := hfail 0 (Nat.succ_pos k)
      rw [Nat.add_zero] at hmsg
      have hrem : k < remaining := Nat.lt_of_succ_lt_succ hk
      have hrem0 : (remaining == 0) = false := by
        cases remaining with
        | zero => exact absurd hrem (Nat.not_lt_zero k)
        | succ r => rfl
      have hshift : ∀ i, i < k → ∃ m, prov (calls + 1 + i) = .error m ∧
          classifyProviderError m maxTokens ≠ .rateLimit := by
        intro i hi
        obtain ⟨m, hm, hn⟩ := hfail (i + 1) (Nat.succ_lt_succ hi)
        refine ⟨m, ?_, hn⟩
        have he : calls + 1 + i = calls + (i + 1) := by omega
        rw [he]
        exact hm
      have hok' : prov (calls + 1 + k) = .ok (c, t) := by
        have he : calls + 1 + k = calls + (k + 1) := by omega
        rw [he]
        exact hok
      have hfix : calls + 1 + k + 1 = calls + (k + 1) + 1 := by omega
      rw [completeWithRetryGo, complete_error prov calls maxTokens msg hmsg]
      cases hcl : classifyProviderError msg maxTokens with
      | rateLimit => exact absurd hcl hne
      | tokenLimit r l =>
        rw [hrem0]
        simp only [Bool.false_eq_true, if_false]
        rw [ih remaining (calls + 1) (attempt + 1)
          (some (.tokenLimit r l)) (sleeps ++ [2 ^ attempt]) c t hrem hshift
          hok']
        rw [hfix, backoffs, List.append_assoc, List.singleton_append]
      | api reason =>
        rw [hrem0]
        simp only [Bool.false_eq_true, if_false]
        rw [ih remaining (calls + 1) (attempt + 1)
          (some (.api reason)) (sleeps ++ [2 ^ attempt]) c t hrem hshift
          hok']
        rw [hfix, backoffs, List.append_assoc, List.singleton_append]

/-- Retry loop in which every remaining attempt fails without a rate
limit: the loop ends with some classified error and no success. -/
theorem completeWithRetryGo_all_fail (prov : Provider) (maxTokens : Nat) :
    ∀ remaining calls attempt lastError sleeps,
    (∀ i, i < remaining → ∃ msg, prov (calls + i) = .error msg ∧
      classifyProviderError msg maxTokens ≠ .rateLimit) →
    ∃ e, (completeWithRetryGo prov maxTokens calls attempt remaining
      lastError sleeps).result = .error e := by
  intro remaining
  induction remaining with
  | zero =>
    intro calls attempt lastError sleeps _hfail
    exact ⟨_, rfl⟩
  | succ remaining ih =>
    intro calls attempt lastError sleeps hfail
    obtain ⟨msg, hmsg, hne⟩ := hfail 0 (Nat.succ_pos remaining)
    rw [Nat.add_zero] at hmsg
    have hshift : ∀ i, i < remaining →
        ∃ m, prov (calls + 1 + i) = .error m ∧
          classifyProviderError m maxTokens ≠ .rateLimit := by
      intro i hi
      obtain ⟨m, hm, hn⟩ := hfail (i + 1) (Nat.succ_lt_succ hi)
      refine ⟨m, ?_, hn⟩
      have he : calls + 1 + i = calls + (i + 1) := by omega
      rw [he]
      exact hm
    rw [completeWithRetryGo, complete_error prov calls maxTokens msg hmsg]
    cases hcl : classifyProviderError msg maxTokens with
    | rateLimit => exact absurd hcl hne
    | tokenLimit r l =>
      cases remaining with
      | zero => exact ⟨_, rfl⟩
      | succ r' =>
        simp only [Nat.succ_ne_zero, beq_iff_eq, if_false]
        exact ih (calls + 1) (attempt + 1) _ _ hshift
    | api reason =>
      cases remaining with
      | zero => exact ⟨_, rfl⟩
      | succ r' =>
        simp only [Nat.succ_ne_zero, beq_iff_eq, if_false]
        exact ih (calls + 1) (attempt + 1) _ _ hshift

/-! ## Claim C3: failure classification and retry policy -/

/-- C3 (amended): on the provider client path, complete_with_retry
surfaces a rate-limit-classified failure of the first attempt immediately
(one provider call, no backoff, no retry), and retries every other failure
— including terminal ones such as authentication or malformed-request
errors, which are classified as plain API errors — with base-2,
attempt-indexed exponential backoff until an attempt succeeds.  On the
coordinator failure path, handle_agent_failure retries exactly the error
types whose names contain TimeoutError, ConnectionError, RateLimitError or
ServiceUnavailableError — so an explicit rate-limit error type is
auto-retried there, with backoff 2 ^ retry_count — and degrades every
other case to the fallback result without touching the provider. -/
theorem retry_classification_characterization :
    (∀ (prov : Provider) (maxTokens maxRetries calls : Nat) (msg : String),
      prov calls = .error msg →
      classifyProviderError msg maxTokens = .rateLimit →
      1 ≤ maxRetries →
      completeWithRetry prov maxTokens maxRetries calls =
        { calls := calls + 1, sleeps := [], result := .error .rateLimit })
    ∧ (∀ (prov : Provider) (maxTokens maxRetries calls k : Nat)
        (c : String) (t : Nat), k < maxRetries →
        (∀ i, i < k → ∃ msg, prov (calls + i) = .error msg ∧
          classifyProviderError msg maxTokens ≠ .rateLimit) →
        prov (calls + k) = .ok (c, t) →
        completeWithRetry prov maxTokens maxRetries calls =
          { calls := calls + k + 1,
            sleeps := (List.range k).map (fun i => 2 ^ i),
            result := .ok (c, t) })
    ∧ (∀ (cfg : Settings) (prov : Provider) (registry : AgentRegistry)
        (w : World) (now : Nat)
        (agentType sid rid errorType errorMsg : String)
        (retryCount maxRetries : Nat),
        ¬(isRetryableErrorType errorType = true ∧ retryCount < maxRetries) →
        handleAgentFailure cfg prov registry w now agentType sid rid
          errorType errorMsg retryCount maxRetries =
          (w, [],
            { success := false,
              data := some (fallbackResponse agentType errorMsg),
              error := some ("Agent执行失败: " ++ errorMsg),
              metadata :=
                { agent := some agentType, errorType := some errorType,
                  retryCount := some retryCount,
                  fallback := some true } }))
    ∧ (∀ (cfg : Settings) (prov : Provider) (registry : AgentRegistry)
        (w : World) (now : Nat)
        (agentType sid rid errorType errorMsg : String)
        (retryCount maxRetries : Nat),
        isRetryableErrorType errorType = true → retryCount < maxRetries →
        ∃ rest, (handleAgentFailure cfg prov registry w now agentType sid
          rid errorType errorMsg retryCount maxRetries).2.1 =
            2 ^ retryCount :: rest) := by
  refine ⟨?_, ?_, ?_, ?_⟩
  · intro prov maxTokens maxRetries calls msg hmsg hcl hge
    match maxRetries, hge with
    | maxRetries + 1, _ =>
      rw [completeWithRetry, completeWithRetryGo,
        complete_error prov calls maxTokens msg hmsg, hcl]
  · intro prov maxTokens maxRetries calls k c t hk hfail hok
    rw [completeWithRetry,
      completeWithRetryGo_ok_at prov maxTokens k maxRetries calls 0 none []
        c t hk hfail hok]
    rw [backoffs_eq_range, List.nil_append]
    have hm : List.map (fun i => 2 ^ (0 + i)) (List.range k) =
        List.map (fun i => 2 ^ i) (List.range k) :=
      List.map_congr_left (fun i _ => by rw [Nat.zero_add])
    rw [hm]
  · intro cfg prov registry w now agentType sid rid errorType errorMsg
      retryCount maxRetries hcond
    unfold handleAgentFailure
    rw [dif_neg hcond]
  · intro cfg prov registry w now agentType sid rid errorType errorMsg
      retryCount maxRetries h1 h2
    unfold handleAgentFailure
    rw [dif_pos (And.intro h1 h2)]
    rcases hE : executeAgent cfg prov registry w now agentType sid
      (rid ++ "_retry_" ++ toString (retryCount + 1)) [] [] with ⟨w', result⟩
    cases hrs : result.success with
    | true =>
      simp only [hrs, if_true]
      exact ⟨[], rfl⟩
    | false =>
      simp only [hrs, Bool.false_eq_true, if_false]
      exact ⟨_, rfl⟩

/-- C3 witness: applying the characterization concretely — a first-call
rate-limit is surfaced after exactly one provider call with no retry, and
a non-retryable error type degrades at once to the flagged fallback
result. -/
theorem retry_classification_characterization_witness :
    completeWithRetry provRL 4000 3 0 =
      { calls := 1, sleeps := [], result := .error .rateLimit }
    ∧ (handleAgentFailure cfgD provOk sampleRegistry emptyWorld 0 "chat"
        "s1" "r1" "LLMAPIException" "boom" 0 3).2.2.metadata.fallback =
      some true := by
  constructor
  · exact retry_classification_characterization.1 provRL 4000 3 0
      "rate_limit hit" rfl (by decide) (by omega)
  · rw [retry_classification_characterization.2.2.1 cfgD provOk
      sampleRegistry emptyWorld 0 "chat" "s1" "r1" "LLMAPIException" "boom"
      0 3 (by decide)]

/-- C3 counterexample: the coordinator retry path classifies the error
type RateLimitError as retryable — a concrete run with a rate-limit-typed
failure sleeps 2 ^ 0 = 1 second, re-invokes the provider once and returns
the retried success, so an explicit rate-limit error is auto-retried on
that path; and the client retry path retries a terminal authentication
error (two provider calls with a backoff sleep), so retries are not
limited to timeouts, connection failures and service-unavailable errors. -/
theorem rate_limit_retried_terminal_retried_counterexample :
    isRetryableErrorType "RateLimitError" = true
    ∧ ((handleAgentFailure cfgD provOk sampleRegistry emptyWorld 0 "chat"
        "s1" "r1" "RateLimitError" "rate limited" 0 3).2.2.success = true
      ∧ (handleAgentFailure cfgD provOk sampleRegistry emptyWorld 0 "chat"
          "s1" "r1" "RateLimitError" "rate limited" 0 3).1.providerCalls = 1
      ∧ (handleAgentFailure cfgD provOk sampleRegistry emptyWorld 0 "chat"
          "s1" "r1" "RateLimitError" "rate limited" 0 3).2.1 = [1])
    ∧ completeWithRetry provAuthOk 4000 3 0 =
      { calls := 2, sleeps := [1], result := .ok ("done", 7) } := by
  have hc : isRetryableErrorType "RateLimitError" = true ∧ 0 < 3 :=
    ⟨by decide, by decide⟩
  refine ⟨by decide, ⟨?_, ?_, ?_⟩, by decide⟩ <;>
    (unfold handleAgentFailure; rw [dif_pos hc]; decide)

/-! ## Claim C2: exhausted retries degrade without raising -/

/-- A cache read that reports no payload leaves the keyspace unchanged. -/
theorem analysisCacheGetResult_none (cfg : Settings) (kv : KV) (now : Nat)
    (analysisType content : String)
    (h : (analysisCacheGetResult cfg kv now analysisType content).2 = none) :
    analysisCacheGetResult cfg kv now analysisType content = (kv, none) := by
  simp only [analysisCacheGetResult] at h ⊢
  cases hg : kvGet kv now
      (analysisResultKey analysisType (sha256Hex content)) with
  | none => rfl
  | some data =>
    rw [hg] at h
    exact absurd h (by simp)

/-- On a cache miss the agent cache read yields no result and keeps the
keyspace, whether or not caching is enabled. -/
theorem agentGetFromCache_none (cfg : Settings) (spec : AgentSpec) (kv : KV)
    (now : Nat) (cacheKey : String)
    (h : (analysisCacheGetResult cfg kv now spec.name cacheKey).2 = none) :
    agentGetFromCache cfg spec kv now cacheKey = (kv, none) := by
  unfold agentGetFromCache
  by_cases hec : spec.enableCache = true
  · rw [if_pos hec, analysisCacheGetResult_none cfg kv now spec.name
      cacheKey h]
  · rw [if_neg hec]

/-- BaseAgent.run with valid inputs, a cache miss, and a provider that
fails without a rate limit on every attempt: the call returns the failure
result assembled by the except handler — success false, no data, the
wrapped AgentExecutionException message, and metadata carrying only the
agent name (no fallback flag, no from_cache key) — and the world advances
only by the provider calls made. -/
theorem agentRun_fail (cfg : Settings) (prov : Provider) (spec : AgentSpec)
    (w : World) (now : Nat) (inputs : PyDict)
    (hval : spec.validate inputs = none)
    (hmiss : (analysisCacheGetResult cfg w.kv now spec.name
      (generateCacheKey spec.name inputs)).2 = none)
    (hfail : ∀ i, i < spec.retryAttempts →
      ∃ msg, prov (w.providerCalls + i) = .error msg ∧
        classifyProviderError msg spec.maxTokens ≠ .rateLimit) :
    ∃ e, agentRun cfg prov spec w now inputs =
      ({ w with providerCalls := (completeWithRetry prov spec.maxTokens
          spec.retryAttempts w.providerCalls).calls },
       { success := false, data := none,
         error := some ("Agent " ++ spec.name ++ " 执行失败: "
           ++ llmErrorMessage e),
         metadata := { agent := some spec.name } }) := by
  obtain ⟨e, he⟩ := completeWithRetryGo_all_fail prov spec.maxTokens
    spec.retryAttempts w.providerCalls 0 none [] hfail
  have he' : (completeWithRetry prov spec.maxTokens spec.retryAttempts
      w.providerCalls).result = .error e := he
  refine ⟨e, ?_⟩
  simp only [agentRun, hval,
    agentGetFromCache_none cfg spec w.kv now
      (generateCacheKey spec.name inputs) hmiss,
    agentRunLLM, he']

/-- C2 (amended): when every provider attempt up to the configured maximum
fails with a retryable (non-rate-limit) error, execute_agent returns — it
never raises, the coordinator and the agent template method catch every
exception — a result with success false, but the result carries no data at
all (data is None, not a kind-specific default payload) and its metadata
has no fallback key and no from_cache key; the error field holds the
wrapped AgentExecutionException message.  The flagged fallback payload is
only assembled by handle_agent_failure, which the execute path never
invokes. -/
theorem execute_retry_exhaustion_failure (cfg : Settings) (prov : Provider)
    (registry : AgentRegistry) (w : World) (now : Nat)
    (agentType sid rid : String) (agentKwargs inputs : PyDict)
    (spec : AgentSpec)
    (hreg : registry agentType agentKwargs = some spec)
    (hval : spec.validate inputs = none)
    (hmiss : (analysisCacheGetResult cfg w.kv now spec.name
      (generateCacheKey spec.name inputs)).2 = none)
    (hlock : w.locks.lookup (agentLockKey sid agentType) = none)
    (hfail : ∀ i, i < spec.retryAttempts →
      ∃ msg, prov (w.providerCalls + i) = .error msg ∧
        classifyProviderError msg spec.maxTokens ≠ .rateLimit) :
    (executeAgent cfg prov registry w now agentType sid rid agentKwargs
      inputs).2.success = false
    ∧ (executeAgent cfg prov registry w now agentType sid rid agentKwargs
      inputs).2.data = none
    ∧ (executeAgent cfg prov registry w now agentType sid rid agentKwargs
      inputs).2.metadata.fallback = none
    ∧ (executeAgent cfg prov registry w now agentType sid rid agentKwargs
      inputs).2.metadata.fromCache = none
    ∧ ∃ e, (executeAgent cfg prov registry w now agentType sid rid
        agentKwargs inputs).2.error =
      some ("Agent " ++ spec.name ++ " 执行失败: " ++ llmErrorMessage e) := by
  obtain ⟨e, hrun⟩ := agentRun_fail cfg prov spec
    { w with locks := (agentLockKey sid agentType, rid) :: w.locks } now
    inputs hval hmiss hfail
  have hres : (executeAgent cfg prov registry w now agentType sid rid
      agentKwargs inputs).2 =
      { success := false, data := none,
        error := some ("Agent " ++ spec.name ++ " 执行失败: "
          ++ llmErrorMessage e),
        metadata := { agent := some spec.name } } := by
    simp only [executeAgent, acquireLock, hlock, hreg, hrun,
      Bool.not_true, Bool.false_eq_true, if_false]
  rw [hres]
  exact ⟨rfl, rfl, rfl, rfl, ⟨e, rfl⟩⟩

/-- C2 witness: the characterization applied to a concrete run — the chat
agent, an empty world, and a provider failing every attempt with a plain
transient error. -/
theorem execute_retry_exhaustion_failure_witness :
    (executeAgent cfgD provBoom sampleRegistry emptyWorld 0 "chat" "s1"
      "r1" [] [("message", JVal.str "hi")]).2.success = false
    ∧ (executeAgent cfgD provBoom sampleRegistry emptyWorld 0 "chat" "s1"
      "r1" [] [("message", JVal.str "hi")]).2.metadata.fallback = none := by
  have h := execute_retry_exhaustion_failure cfgD provBoom sampleRegistry
    emptyWorld 0 "chat" "s1" "r1" [] [("message", JVal.str "hi")]
    (sampleSpec "chat") rfl rfl (by decide) rfl
    (fun i _ => ⟨"boom", rfl, by decide⟩)
  exact ⟨h.1, h.2.2.1⟩

/-- C2 counterexample: in the same concrete run the claim requires
metadata.fallback = true and a kind-specific default payload, but the
returned result has no fallback key at all and data is None; success is
false and no exception escapes, which is the part of the claim that
holds. -/
theorem execute_retry_exhaustion_no_fallback_flag_counterexample :
    (executeAgent cfgD provBoom sampleRegistry emptyWorld 0 "chat" "s1"
      "r1" [] [("message", JVal.str "hi")]).2 =
      { success := false, data := none,
        error := some ("Agent chat 执行失败: AI服务暂时不可用: boom"),
        metadata := { agent := some "chat" } }
    ∧ ({ agent := some "chat" } : AgentMetadata).fallback = none
    ∧ (fallbackResponse "chat" "boom").isEmpty = false := by
  refine ⟨by decide, by decide, by decide⟩

/-! ## Claim C7: mode allow-list -/

/-- C7 (amended): validate_operation computes allow-list membership —
true exactly when the mode is known and the operation is in its agents
list — but no caller invokes it: route_and_execute resolves the task token
through the static map and executes the resolved agent unconditionally,
raising AgentNotFoundException only for an unknown token; no InvalidMode
failure ever arises from the allow-list on the execution path. -/
theorem mode_allow_list_not_enforced :
    (∀ mode op, validateOperation mode op = true ↔
      ∃ agents, modeAgents mode = some agents ∧ op ∈ agents)
    ∧ (∀ (cfg : Settings) (prov : Provider) (registry : AgentRegistry)
        (w : World) (now : Nat) (taskType sid rid : String)
        (context inputs : PyDict) (agentType : String),
        taskAgentMap.lookup taskType = some agentType →
        routeAndExecute cfg prov registry w now taskType sid rid context
          inputs = .ok (executeAgent cfg prov registry w now agentType sid
            rid (buildAgentKwargs context) inputs))
    ∧ (∀ (cfg : Settings) (prov : Provider) (registry : AgentRegistry)
        (w : World) (now : Nat) (taskType sid rid : String)
        (context inputs : PyDict),
        taskAgentMap.lookup taskType = none →
        routeAndExecute cfg prov registry w now taskType sid rid context
          inputs = .error (.agentNotFound taskType)) := by
  refine ⟨?_, ?_, ?_⟩
  · intro mode op
    unfold validateOperation
    cases hm : modeAgents mode with
    | none => simp
    | some agents => simp [List.elem_iff]
  · intro cfg prov registry w now taskType sid rid context inputs agentType h
    unfold routeAndExecute
    rw [h]
  · intro cfg prov registry w now taskType sid rid context inputs h
    unfold routeAndExecute
    rw [h]

/-- C7 witness: the characterization applied to the concrete literature
session and the math_validation task token, and to an unknown token. -/
theorem mode_allow_list_not_enforced_witness :
    routeAndExecute cfgD provOk sampleRegistry emptyWorld 0
      "math_validation" "s1" "r1" [("mode", JVal.str "literature")]
      [("content", JVal.str "x")] =
      .ok (executeAgent cfgD provOk sampleRegistry emptyWorld 0
        "math_validator" "s1" "r1" [("mode", JVal.str "literature")]
        [("content", JVal.str "x")])
    ∧ routeAndExecute cfgD provOk sampleRegistry emptyWorld 0 "unknown"
        "s1" "r1" [] [] = .error (.agentNotFound "unknown") := by
  constructor
  · exact mode_allow_list_not_enforced.2.1 cfgD provOk sampleRegistry
      emptyWorld 0 "math_validation" "s1" "r1"
      [("mode", JVal.str "literature")] [("content", JVal.str "x")]
      "math_validator" rfl
  · exact mode_allow_list_not_enforced.2.2 cfgD provOk sampleRegistry
      emptyWorld 0 "unknown" "s1" "r1" [] [] rfl

/-- C7 counterexample: math_validator is not in the allow-list of the
literature mode, yet a math_validation request on a literature-mode
session is executed — the router returns an executed success result with
one provider invocation instead of failing with InvalidMode. -/
theorem route_and_execute_ignores_mode_counterexample :
    validateOperation "literature" "math_validator" = false
    ∧ Except.map
        (fun p => (p.2.success, p.2.metadata.fromCache, p.1.providerCalls))
        (routeAndExecute cfgD provOk sampleRegistry emptyWorld 0
          "math_validation" "s1" "r1" [("mode", JVal.str "literature")]
          [("content", JVal.str "x")]) =
      .ok (true, some false, 1) := by
  refine ⟨by decide, by decide⟩

/-! ## Claim C8: chain execution -/

/-- With no binding for the key, Python dict assignment appends. -/
theorem pyDictSet_append_of_lookup_none {α : Type}
    (d : List (String × α)) (k : String) (v : α)
    (h : d.lookup k = none) : pyDictSet d k v = d ++ [(k, v)] := by
  have hany : d.any (fun kv => kv.1 == k) = false := by
    induction d with
    | nil => rfl
    | cons x xs ih =>
      rw [List.lookup] at h
      by_cases he : k = x.1
      · rw [beq_iff_eq.mpr he] at h
        exact absurd h (by simp)
      · rw [beq_eq_false_iff_ne.mpr he] at h
        simp only [List.any_cons, ih h, Bool.or_false]
        exact beq_eq_false_iff_ne.mpr (Ne.symm he)
  rw [pyDictSet, hany]
  simp

/-- Lookup skips a first block that does not bind the key. -/
theorem lookup_append_none {α : Type} (l₁ l₂ : List (String × α))
    (k : String) (h : l₁.lookup k = none) :
    (l₁ ++ l₂).lookup k = l₂.lookup k := by
  induction l₁ with
  | nil => rfl
  | cons x xs ih =>
    rw [List.lookup] at h
    by_cases he : k = x.1
    · rw [beq_iff_eq.mpr he] at h
      exact absurd h (by simp)
    · rw [beq_eq_false_iff_ne.mpr he] at h
      rw [List.cons_append, List.lookup, beq_eq_false_iff_ne.mpr he]
      exact ih h

/-- Lookup misses every association list whose keys avoid the key. -/
theorem lookup_eq_none_of_not_mem_keys {α : Type}
    (l : List (String × α)) (k : String)
    (h : k ∉ l.map Prod.fst) : l.lookup k = none := by
  induction l with
  | nil => rfl
  | cons x xs ih =>
    simp only [List.map_cons, List.mem_cons] at h
    push_neg at h
    rw [List.lookup, beq_eq_false_iff_ne.mpr h.1]
    exact ih h.2

/-- Loop body of execute_agent_chain with an accumulator whose keys avoid
every pending step kind: the executed steps are appended to the
accumulator, they form a prefix of the step list, every recorded result
before the last one succeeded, and when the chain stopped early the last
recorded result failed. -/
theorem executeAgentChainGo_spec (cfg : Settings) (prov : Provider)
    (registry : AgentRegistry) (sid rid : String) (now : Nat) :
    ∀ (steps : List (String × PyDict)) (w : World) (input : PyDict)
      (acc : List (String × AgentResult)),
    (∀ s ∈ steps, acc.lookup s.1 = none) →
    (steps.map Prod.fst).Nodup →
    ∃ w' i newres, i ≤ steps.length ∧
      executeAgentChainGo cfg prov registry sid rid now steps w input acc =
        (w', acc ++ newres)
      ∧ newres.map Prod.fst = (steps.take i).map Prod.fst
      ∧ (∀ r ∈ newres.dropLast, r.2.success = true)
      ∧ (i < steps.length →
          ∃ last, newres.getLast? = some last ∧ last.2.success = false) := by
  intro steps
  induction steps with
  | nil =>
    intro w input acc _hdisj _hnd
    exact ⟨w, 0, [], Nat.le_refl 0, by simp [executeAgentChainGo],
      rfl, by simp, fun h => absurd h (Nat.not_lt_zero 0)⟩
  | cons step rest ih =>
    intro w input acc hdisj hnd
    obtain ⟨atype, kwargs⟩ := step
    rcases hE : executeAgent cfg prov registry w now atype sid
      (rid ++ "_" ++ atype) kwargs input with ⟨w₁, r⟩
    have hacc0 : acc.lookup atype = none :=
      hdisj (atype, kwargs) (List.mem_cons_self _ _)
    have hset : pyDictSet acc atype r = acc ++ [(atype, r)] :=
      pyDictSet_append_of_lookup_none acc atype r hacc0
    simp only [List.map_cons, List.nodup_cons] at hnd
    cases hrs : r.success with
    | false =>
      refine ⟨w₁, 1, [(atype, r)], by simp, ?_, by simp, by simp, ?_⟩
      · simp only [executeAgentChainGo, hE, hrs, Bool.false_eq_true,
          if_false, hset]
      · intro _h
        exact ⟨(atype, r), rfl, hrs⟩
    | true =>
      have hdisj' : ∀ s ∈ rest, (acc ++ [(atype, r)]).lookup s.1 = none := by
        intro s hs
        have hne : s.1 ≠ atype := by
          intro he
          exact hnd.1 (he ▸ List.mem_map_of_mem Prod.fst hs)
        rw [lookup_append_none acc [(atype, r)] s.1
          (hdisj s (List.mem_cons_of_mem _ hs))]
        rw [List.lookup, beq_eq_false_iff_ne.mpr hne]
        rfl
      obtain ⟨w', i, newres, hle, hgo, hmap, hdrop, hlast⟩ :=
        ih w₁
          (match r.data with
           | some d => if d.isEmpty then input else pyDictUpdate input d
           | none => input)
          (acc ++ [(atype, r)]) hdisj' hnd.2
      refine ⟨w', i + 1, (atype, r) :: newres, Nat.succ_le_succ hle, ?_,
        by simpa using hmap, ?_, ?_⟩
      · simp only [executeAgentChainGo, hE, hrs, if_true, hset]
        rw [hgo, List.append_assoc, List.singleton_append]
      · intro x hx
        cases hnr : newres with
        | nil =>
          subst hnr
          simp at hx
        | cons y ys =>
          subst hnr
          rw [List.dropLast_cons₂] at hx
          rcases List.mem_cons.mp hx with hx1 | hx2
          · rw [hx1]
            exact hrs
          · exact hdrop x hx2
      · intro hilt
        obtain ⟨last, hl, hf⟩ := hlast (Nat.lt_of_succ_lt_succ hilt)
        refine ⟨last, ?_, hf⟩
        cases hnr : newres with
        | nil =>
          subst hnr
          simp at hl
        | cons y ys =>
          subst hnr
          rw [List.getLast?_cons_cons]
          exact hl

/-- C8 (amended): for a chain whose step kinds are pairwise distinct, the
returned results dict — keyed by analysis kind — contains exactly the
results of the executed prefix of steps 1..i in order, where every
recorded result before the last succeeded and, when the chain stopped
before the end, the last recorded result is the failing one; steps after i
leave no entry.  When two steps share a kind the later result overwrites
the earlier entry, which is what the counterexample exhibits. -/
theorem execute_agent_chain_prefix_characterization (cfg : Settings)
    (prov : Provider) (registry : AgentRegistry)
    (steps : List (String × PyDict)) (sid rid : String) (w : World)
    (now : Nat) (input : PyDict)
    (hnd : (steps.map Prod.fst).Nodup) :
    ∃ i, i ≤ steps.length
      ∧ ((executeAgentChain cfg prov registry steps sid rid w now
          input).2).map Prod.fst = (steps.take i).map Prod.fst
      ∧ (∀ r ∈ ((executeAgentChain cfg prov registry steps sid rid w now
          input).2).dropLast, r.2.success = true)
      ∧ (i < steps.length → ∃ last,
          ((executeAgentChain cfg prov registry steps sid rid w now
            input).2).getLast? = some last ∧ last.2.success = false)
      ∧ (∀ s ∈ steps.drop i,
          ((executeAgentChain cfg prov registry steps sid rid w now
            input).2).lookup s.1 = none) := by
  obtain ⟨w', i, newres, hle, hgo, hmap, hdrop, hlast⟩ :=
    executeAgentChainGo_spec cfg prov registry sid rid now steps w input []
      (fun s _ => rfl) hnd
  have hres : (executeAgentChain cfg prov registry steps sid rid w now
      input).2 = newres := by
    rw [executeAgentChain, hgo]
    rfl
  refine ⟨i, hle, ?_, ?_, ?_, ?_⟩
  · rw [hres, hmap]
  · rw [hres]
    exact hdrop
  · intro hlt
    rw [hres]
    exact hlast hlt
  · intro s hs
    rw [hres]
    refine lookup_eq_none_of_not_mem_keys newres s.1 ?_
    rw [hmap]
    intro hmem
    have hnd2 : ((steps.take i).map Prod.fst
        ++ (steps.drop i).map Prod.fst).Nodup := by
      rw [← List.map_append, List.take_append_drop]
      exact hnd
    have hdisj := (List.nodup_append.mp hnd2).2.2
    exact hdisj hmem (List.mem_map_of_mem Prod.fst hs)

/-- C8 witness: the characterization applied to a concrete two-step chain
with distinct kinds — the recorded keys are a prefix of the chain. -/
theorem execute_agent_chain_prefix_characterization_witness :
    ∃ i, i ≤ 2
      ∧ ((executeAgentChain cfgD provOk sampleRegistry
          [("grammar_checker", []), ("chat", [])] "s1" "r1" emptyWorld 0
          [("message", JVal.str "hi")]).2).map Prod.fst =
        (([("grammar_checker", ([] : PyDict)), ("chat", [])].take i)).map
          Prod.fst := by
  obtain ⟨i, hle, hmap, -, -, -⟩ :=
    execute_agent_chain_prefix_characterization cfgD provOk sampleRegistry
      [("grammar_checker", []), ("chat", [])] "s1" "r1" emptyWorld 0
      [("message", JVal.str "hi")] (by decide)
  exact ⟨i, hle, hmap⟩

/-- C8 counterexample: a chain of two steps with the same kind in which
both steps succeed — the provider is invoked twice, so both steps
executed, yet the returned dict holds a single entry carrying only the
data of the second step; the result of step 1 (content a) is not in the
map, refuting the claim that the map contains exactly the results of
steps 1..i. -/
theorem chain_duplicate_kind_overwrite_counterexample :
    dupChainRun.2.length = 1
    ∧ (dupChainRun.2.lookup "chat").map (fun r => (r.success, r.data)) =
      some (true, some [("content", JVal.str "b")])
    ∧ dupChainRun.1.providerCalls = 2 := by
  refine ⟨by decide, ?_, by decide⟩
  decide

/-! ## Claim C9: cache idempotence of execute -/

/-- Filtering out a key that is not bound leaves the store unchanged. -/
theorem filter_ne_of_lookup_none {α : Type} (l : List (String × α))
    (k : String) (h : l.lookup k = none) :
    l.filter (fun kv => kv.1 ≠ k) = l := by
  induction l with
  | nil => rfl
  | cons x xs ih =>
    rw [List.lookup] at h
    by_cases he : k = x.1
    · rw [beq_iff_eq.mpr he] at h
      exact absurd h (by simp)
    · rw [beq_eq_false_iff_ne.mpr he] at h
      rw [List.filter_cons, if_pos (by simpa using Ne.symm he)]
      rw [ih h]

/-- BaseAgent.run on a cache miss whose first provider attempt succeeds:
one provider call, the parsed result is cached and returned with
from_cache false. -/
theorem agentRun_ok_first (cfg : Settings) (prov : Provider)
    (spec : AgentSpec) (w : World) (now : Nat) (inputs : PyDict)
    (c : String) (t : Nat)
    (hval : spec.validate inputs = none)
    (hmiss : (analysisCacheGetResult cfg w.kv now spec.name
      (generateCacheKey spec.name inputs)).2 = none)
    (hretry : 1 ≤ spec.retryAttempts)
    (hprov : prov w.providerCalls = .ok (c, t)) :
    agentRun cfg prov spec w now inputs =
      ({ w with
          kv := agentSaveToCache cfg spec w.kv now
            (generateCacheKey spec.name inputs) (spec.parse c),
          providerCalls := w.providerCalls + 1 },
       { success := true, data := some (spec.parse c),
         metadata :=
           { agent := some spec.name, fromCache := some false,
             tokensUsed := some t } }) := by
  have hret : completeWithRetry prov spec.maxTokens spec.retryAttempts
      w.providerCalls =
      { calls := w.providerCalls + 1, sleeps := [], result := .ok (c, t) } := by
    have h := completeWithRetryGo_ok_at prov spec.maxTokens 0
      spec.retryAttempts w.providerCalls 0 none [] c t hretry
      (fun i hi => absurd hi (Nat.not_lt_zero i))
      (by rw [Nat.add_zero]; exact hprov)
    simpa [completeWithRetry, backoffs] using h
  simp only [agentRun, hval,
    agentGetFromCache_none cfg spec w.kv now
      (generateCacheKey spec.name inputs) hmiss,
    agentRunLLM, hret]

/-- BaseAgent.run on a live cached entry with non-empty results: no
provider call, the stored results are returned with from_cache true, and
the entry is written back refreshed. -/
theorem agentRun_hit (cfg : Settings) (prov : Provider) (spec : AgentSpec)
    (w : World) (now : Nat) (inputs : PyDict) (entry : AnalysisEntryVal)
    (hval : spec.validate inputs = none)
    (hec : spec.enableCache = true)
    (hget : kvGet w.kv now (analysisResultKey spec.name
      (sha256Hex (generateCacheKey spec.name inputs))) = some entry)
    (hne : entry.results.isEmpty = false) :
    agentRun cfg prov spec w now inputs =
      ({ w with
          kv := kvSetEx w.kv now (analysisResultKey spec.name
            (sha256Hex (generateCacheKey spec.name inputs)))
            { entry with hitCount := entry.hitCount + 1 }
            cfg.analysisCacheTtl },
       { success := true, data := some entry.results,
         metadata :=
           { agent := some spec.name, fromCache := some true } }) := by
  simp only [agentRun, hval, agentGetFromCache, hec, if_true,
    analysisCacheGetResult, hget, hne, Bool.false_eq_true, if_false]

/-- AgentCoordinator.execute_agent assembled from an agent run that keeps
the lock store: the lock is acquired, the run result is returned, and the
release in the finally block restores the original lock store. -/
theorem executeAgent_eq (cfg : Settings) (prov : Provider)
    (registry : AgentRegistry) (w : World) (now : Nat)
    (agentType sid rid : String) (agentKwargs inputs : PyDict)
    (spec : AgentSpec) (W₂ : World) (R : AgentResult)
    (hreg : registry agentType agentKwargs = some spec)
    (hlock : w.locks.lookup (agentLockKey sid agentType) = none)
    (hrun : agentRun cfg prov spec
      { w with locks := (agentLockKey sid agentType, rid) :: w.locks } now
      inputs = (W₂, R))
    (hlocks : W₂.locks = (agentLockKey sid agentType, rid) :: w.locks) :
    executeAgent cfg prov registry w now agentType sid rid agentKwargs
      inputs = ({ W₂ with locks := w.locks }, R) := by
  simp only [executeAgent, acquireLock, hlock, Bool.not_true,
    Bool.false_eq_true, if_false, hreg, hrun, releaseLock, hlocks,
    List.lookup, beq_self_eq_true, if_true, removeLockKey,
    List.filter_cons]
  rw [if_neg (by simp)]
  rw [filter_ne_of_lookup_none w.locks (agentLockKey sid agentType) hlock]

/-- C9 (amended): two execute calls with the same analysis kind and
canonically identical inputs within the cache TTL behave idempotently
provided the first call succeeds and produces a cacheable (non-empty)
result: the first call invokes the provider exactly once and answers with
from_cache false; the second call answers from the cache with from_cache
true, makes no provider invocation, and returns the same data.  When the
first call fails nothing is cached and the second call invokes the
provider again, which is what the counterexample exhibits. -/
theorem execute_cache_idempotence (cfg : Settings) (prov : Provider)
    (registry : AgentRegistry) (w : World) (now₁ now₂ : Nat)
    (agentType sid rid₁ rid₂ : String)
    (agentKwargs inputs₁ inputs₂ : PyDict) (spec : AgentSpec)
    (c : String) (t : Nat)
    (hreg : registry agentType agentKwargs = some spec)
    (hec : spec.enableCache = true)
    (hv₁ : spec.validate inputs₁ = none)
    (hv₂ : spec.validate inputs₂ = none)
    (hkey : generateCacheKey spec.name inputs₂ =
      generateCacheKey spec.name inputs₁)
    (hmiss : (analysisCacheGetResult cfg w.kv now₁ spec.name
      (generateCacheKey spec.name inputs₁)).2 = none)
    (hlock : w.locks.lookup (agentLockKey sid agentType) = none)
    (hprov : prov w.providerCalls = .ok (c, t))
    (hretry : 1 ≤ spec.retryAttempts)
    (hparse : (spec.parse c).isEmpty = false)
    (httl0 : (spec.cacheTtl == 0) = false)
    (httl : now₂ < now₁ + spec.cacheTtl) :
    ∃ V₁ R₁ V₂ R₂,
      executeAgent cfg prov registry w now₁ agentType sid rid₁ agentKwargs
        inputs₁ = (V₁, R₁)
      ∧ executeAgent cfg prov registry V₁ now₂ agentType sid rid₂
          agentKwargs inputs₂ = (V₂, R₂)
      ∧ R₁.success = true
      ∧ R₁.metadata.fromCache = some false
      ∧ V₁.providerCalls = w.providerCalls + 1
      ∧ R₂.success = true
      ∧ R₂.metadata.fromCache = some true
      ∧ V₂.providerCalls = V₁.providerCalls
      ∧ R₂.data = R₁.data
      ∧ R₁.data = some (spec.parse c) := by
  have hrun1 := agentRun_ok_first cfg prov spec
    { w with locks := (agentLockKey sid agentType, rid₁) :: w.locks } now₁
    inputs₁ c t hv₁ hmiss hretry hprov
  have hE1 := executeAgent_eq cfg prov registry w now₁ agentType sid rid₁
    agentKwargs inputs₁ spec _ _ hreg hlock hrun1 rfl
  have hget2 : kvGet (agentSaveToCache cfg spec w.kv now₁
      (generateCacheKey spec.name inputs₁) (spec.parse c)) now₂
      (analysisResultKey spec.name
        (sha256Hex (generateCacheKey spec.name inputs₁))) =
      some { results := spec.parse c, createdAt := now₁, hitCount := 0 } := by
    simp only [agentSaveToCache, hec, if_true, analysisCacheSetResult,
      httl0, Bool.false_eq_true, if_false, kvGet_kvSetEx_same]
    rw [if_pos httl]
  rcases hEx : executeAgent cfg prov registry w now₁ agentType sid rid₁
    agentKwargs inputs₁ with ⟨V₁, R₁⟩
  rw [hEx] at hE1
  have hV : V₁ = _ := congrArg Prod.fst hE1
  have hR : R₁ = _ := congrArg Prod.snd hE1
  have hlock₂ : V₁.locks.lookup (agentLockKey sid agentType) = none := by
    rw [hV]
    exact hlock
  have hget₂ : kvGet V₁.kv now₂ (analysisResultKey spec.name
      (sha256Hex (generateCacheKey spec.name inputs₁))) =
      some { results := spec.parse c, createdAt := now₁, hitCount := 0 } := by
    rw [hV]
    exact hget2
  have hrun2 := agentRun_hit cfg prov spec
    { V₁ with locks := (agentLockKey sid agentType, rid₂) :: V₁.locks }
    now₂ inputs₂ { results := spec.parse c, createdAt := now₁, hitCount := 0 }
    hv₂ hec (by rw [hkey]; exact hget₂) hparse
  have hE2 := executeAgent_eq cfg prov registry V₁ now₂ agentType sid rid₂
    agentKwargs inputs₂ spec _ _ hreg hlock₂ hrun2 rfl
  refine ⟨V₁, R₁, _, _, rfl, hE2, ?_, ?_, ?_, rfl, rfl, rfl, ?_, ?_⟩
  · rw [hR]
  · rw [hR]
  · rw [hV]
  · rw [hR]
  · rw [hR]

/-- C9 witness: the idempotence theorem applied to a concrete pair of
calls whose inputs are key-permutations of each other, ten time units
apart — the second call is answered from the cache with no further
provider invocation. -/
theorem execute_cache_idempotence_witness :
    ∃ V₁ R₁ V₂ R₂,
      executeAgent cfgD provOk sampleRegistry emptyWorld 0 "chat" "s1"
        "r1" [] [("a", JVal.str "1"), ("b", JVal.str "2")] = (V₁, R₁)
      ∧ executeAgent cfgD provOk sampleRegistry V₁ 10 "chat" "s1" "r2" []
          [("b", JVal.str "2"), ("a", JVal.str "1")] = (V₂, R₂)
      ∧ R₂.metadata.fromCache = some true
      ∧ V₂.providerCalls = V₁.providerCalls := by
  obtain ⟨V₁, R₁, V₂, R₂, h1, h2, -, -, -, -, hfc, hpc, -, -⟩ :=
    execute_cache_idempotence cfgD provOk sampleRegistry emptyWorld 0 10
      "chat" "s1" "r1" "r2" [] [("a", JVal.str "1"), ("b", JVal.str "2")]
      [("b", JVal.str "2"), ("a", JVal.str "1")] (sampleSpec "chat") "done"
      7 rfl rfl rfl rfl (by decide) rfl rfl rfl (by decide) (by decide)
      (by decide) (by decide)
  exact ⟨V₁, R₁, V₂, R₂, h1, h2, hfc, hpc⟩

/-- C9 counterexample: when the first call fails (the provider fails every
attempt) nothing is cached, so a second call with identical inputs issued
immediately afterwards is not answered from the cache and invokes the
provider three more times — six invocations in total — refuting the
unconditional claim that the second call has from_cache true and the
provider is invoked at most once across the two calls. -/
theorem cache_no_population_on_failure_counterexample :
    ((executeAgent cfgD provBoom sampleRegistry
        (executeAgent cfgD provBoom sampleRegistry emptyWorld 0 "chat"
          "s1" "r1" [] [("message", JVal.str "hi")]).1
        1 "chat" "s1" "r2" [] [("message", JVal.str "hi")]).2
      ).metadata.fromCache = none
    ∧ (executeAgent cfgD provBoom sampleRegistry
        (executeAgent cfgD provBoom sampleRegistry emptyWorld 0 "chat"
          "s1" "r1" [] [("message", JVal.str "hi")]).1
        1 "chat" "s1" "r2" [] [("message", JVal.str "hi")]
      ).1.providerCalls = 6 := by
  refine ⟨by decide, by decide⟩
